import Mathlib

set_option maxRecDepth 10000

/- Shallow embedding of the staged SQL query builder (class QueryBuilder of
   src/unnamed/part_000 in the graphile monorepo).

   Modelling conventions, fixed for the whole development:
   - JavaScript numbers are modelled as rationals extended with NaN and the
     two infinities (JSNum); Math.max, Number.isSafeInteger and JS truthiness
     are modelled on that type.
   - SQL fragments of the external pg-sql2 library are modelled symbolically.
     Modelled from the spec: pg-sql2 is a package of this repository that is
     not under src/; per the spec it is a fragment composition facility with
     literal embedding, quoted identifier construction (including anonymous
     unique identifiers for internal subexpressions) and joining with a
     separator.  A falsy template interpolation (null, 0, false) contributes
     nothing to the composed fragment, which is what the source relies on
     when it writes, for example, cond && sql.fragment(...); this is also
     forced by the example SQL of the spec, which shows no join and no offset
     clause for a builder that configured neither.
   - Template raw text is kept with whitespace normalised to single spaces.
   - Phases are a closed enumeration; the UnknownPhase branch of lock is
     unrepresentable in the typed model.
   - Callbacks registered through beforeLock are identified by a natural
     number; their effect is given by an environment CbEnv passed to lock.
     The two callbacks registered by the constructor are first in the lists
     for the select and where phases, exactly as the constructor registers
     them, and their behaviour is hard coded (Cb.builtinSelect locks the
     selectCursor phase and injects the compiled cursor into the select list
     under the reserved alias __cursor; Cb.builtinWhere locks the whereBound
     phase).
   - Each mutator that can throw returns Except QBError; lock itself never
     throws in the typed model.
   - The builder state carries two instrumentation fields that the source
     does not have, cbTrace and lockTrace, recording the order in which
     callbacks run and phases become locked; they are write only and never
     influence behaviour. -/

inductive JSNum
  | num (q : ℚ)
  | nan
  | inf
  | ninf
deriving DecidableEq

/-- Math.max(a, b) on JS numbers. -/
def jsMax (a b : JSNum) : JSNum :=
  match a, b with
  | .nan, _ => .nan
  | _, .nan => .nan
  | .inf, _ => .inf
  | _, .inf => .inf
  | .ninf, x => x
  | x, .ninf => x
  | .num p, .num q => .num (max p q)

/-- Number.isSafeInteger: an integer of magnitude at most 2 to the 53 minus 1. -/
def jsIsSafeInteger : JSNum → Bool
  | .num q => q.den == 1 && decide (q.num.natAbs ≤ 9007199254740991)
  | _ => false

/-- JS truthiness of a number: false exactly for 0 and NaN. -/
def jsTruthy : JSNum → Bool
  | .num q => decide (q ≠ 0)
  | .nan => false
  | .inf => true
  | .ninf => true

/-- Strict negativity; NaN is not negative. -/
def jsIsNeg : JSNum → Bool
  | .num q => decide (q < 0)
  | .ninf => true
  | _ => false

/-- RawAlias of the source: a string or an anonymous Symbol (numbered). -/
inductive RawAlias
  | str (s : String)
  | sym (n : Nat)
deriving DecidableEq

inductive Lit
  | bool (b : Bool)
  | jsnum (n : JSNum)
  | str (s : String)
  | alias (a : RawAlias)
deriving DecidableEq

/-- Symbolic pg-sql2 fragment: raw template text, sql.identifier,
    sql.literal, the empty contribution of a falsy interpolation, and
    template concatenation. -/
inductive SQL
  | raw (s : String)
  | ident (parts : List RawAlias)
  | literal (l : Lit)
  | nil
  | cat (a b : SQL)
deriving DecidableEq

/-- Concatenation of a list of fragment pieces, as a template does. -/
def cats : List SQL → SQL
  | [] => SQL.nil
  | x :: xs => SQL.cat x (cats xs)

/-- sql.join: interleave a separator between fragments. -/
def sqlJoin : List SQL → SQL → SQL
  | [], _ => SQL.nil
  | [x], _ => x
  | x :: y :: xs, sep => SQL.cat x (SQL.cat sep (sqlJoin (y :: xs) sep))

/-- Whether some raw text piece of the fragment equals the given string. -/
def containsRaw (t : String) : SQL → Bool
  | SQL.raw s => s == t
  | SQL.cat a b => containsRaw t a || containsRaw t b
  | _ => false

/-- SQLGen of the source: either a concrete fragment or a deferred
    zero-argument producer, resolved by callIfNecessary at lock time. -/
inductive SQLGen
  | val (s : SQL)
  | gen (f : Unit → SQL)

def callIfNecessary : SQLGen → SQL
  | .val s => s
  | .gen f => f ()

def callIfNecessaryArray (l : List SQLGen) : List SQL :=
  l.map callIfNecessary

/-- CursorValue is an opaque caller value (type literal Object in the
    source); any inhabited stand-in works for the claims. -/
def CursorValue := Unit

def CursorComparator := CursorValue → Bool → SQL

/-- The closed enumeration of phases.  cursorPfx models the cursorPrefix
    phase of the source, and fromRel and whereP model the from and where
    phases (those two identifiers are reserved words in Lean). -/
inductive Phase
  | cursorPfx
  | select
  | selectCursor
  | fromRel
  | join
  | whereP
  | whereBound
  | orderBy
  | orderIsUnique
  | limit
  | offset
  | flip
  | cursorComparator
deriving DecidableEq

/-- A registered pre-lock callback: one of the two callbacks installed by
    the constructor, or a user callback identified by a number. -/
inductive Cb
  | builtinSelect
  | builtinWhere
  | user (id : Nat)
deriving DecidableEq

/-- Named error kinds thrown by the builder. -/
inductive QBError
  | doubleLock (p : Phase)
  | noFromTableSource
  | noFromAlias
  | noFromSupplied
  | noCursorComparator
deriving DecidableEq

structure Bounds (α : Type) where
  lower : List α
  upper : List α

/-- Draft state, mirroring the data field of the source. -/
structure DraftData where
  cursorPfx : List String
  select : List (SQLGen × RawAlias)
  selectCursor : Option SQLGen
  fromRel : Option (SQLGen × SQL)
  join : List SQLGen
  whereList : List SQLGen
  whereBound : Bounds SQLGen
  orderBy : List (SQLGen × Bool)
  orderIsUnique : Bool
  limit : Option JSNum
  offset : Option JSNum
  flip : Bool
  beforeLock : Phase → List Cb
  cursorComparator : Option CursorComparator

/-- Compiled state, mirroring the compiledData field of the source. -/
structure CompiledData where
  cursorPfx : List String
  select : List (SQL × RawAlias)
  selectCursor : Option SQL
  fromRel : Option (SQL × SQL)
  join : List SQL
  whereList : List SQL
  whereBound : Bounds SQL
  orderBy : List (SQL × Bool)
  orderIsUnique : Bool
  limit : Option JSNum
  offset : Option JSNum
  flip : Bool
  cursorComparator : Option CursorComparator

structure QueryBuilder where
  locks : Phase → Bool
  finalized : Bool
  data : DraftData
  compiledData : CompiledData
  cbTrace : List (Phase × Cb)
  lockTrace : List Phase
  freshId : Nat

/-- Environment giving the effect of user callbacks. -/
def CbEnv := Nat → QueryBuilder → QueryBuilder

/-- Callback lists after the constructor ran: it registers the select
    injection callback and the whereBound callback through beforeLock. -/
def initialBeforeLock : Phase → List Cb
  | .select => [Cb.builtinSelect]
  | .whereP => [Cb.builtinWhere]
  | _ => []

/-- The state built by the constructor. -/
def newQueryBuilder : QueryBuilder where
  locks := fun _ => false
  finalized := false
  data := { cursorPfx := ["natural"], select := [], selectCursor := none,
            fromRel := none, join := [], whereList := [],
            whereBound := ⟨[], []⟩, orderBy := [], orderIsUnique := false,
            limit := none, offset := none, flip := false,
            beforeLock := initialBeforeLock, cursorComparator := none }
  compiledData := { cursorPfx := ["natural"], select := [], selectCursor := none,
                    fromRel := none, join := [], whereList := [],
                    whereBound := ⟨[], []⟩, orderBy := [], orderIsUnique := false,
                    limit := none, offset := none, flip := false,
                    cursorComparator := none }
  cbTrace := []
  lockTrace := []
  freshId := 0

namespace QueryBuilder

/-- checkLock of the source: fail with the DoubleLock condition when the
    phase is already locked.  In a dev build the stored lock value carries a
    stack trace and only the message differs; both paths throw. -/
def checkLock (p : Phase) (st : QueryBuilder) : Except QBError Unit :=
  if st.locks p then Except.error (QBError.doubleLock p) else Except.ok ()

/-- Mark a phase locked (this.locks[type] = true), recording the event. -/
def markLocked (p : Phase) (st : QueryBuilder) : QueryBuilder :=
  { st with locks := fun q => if q = p then true else st.locks q,
            lockTrace := st.lockTrace ++ [p] }

/-- The phase-specific compilation switch of lock: resolve deferred
    expressions and copy draft to compiled.  The cursorComparator branch of
    the source is an empty block (only a comment), so nothing is copied
    there. -/
def compilePhase (p : Phase) (st : QueryBuilder) : QueryBuilder :=
  match p with
  | .cursorComparator => st
  | .whereBound =>
      { st with compiledData :=
          { st.compiledData with whereBound :=
              ⟨callIfNecessaryArray st.data.whereBound.lower,
               callIfNecessaryArray st.data.whereBound.upper⟩ } }
  | .select =>
      { st with compiledData :=
          { st.compiledData with select :=
              (st.data.select.map (fun x => (callIfNecessary x.1, x.2))) } }
  | .orderBy =>
      { st with compiledData :=
          { st.compiledData with orderBy :=
              (st.data.orderBy.map (fun x => (callIfNecessary x.1, x.2))) } }
  | .fromRel =>
      match st.data.fromRel with
      | some fa =>
          { st with compiledData :=
              { st.compiledData with fromRel := some (callIfNecessary fa.1, fa.2) } }
      | none => st
  | .join =>
      { st with compiledData :=
          { st.compiledData with join := callIfNecessaryArray st.data.join } }
  | .whereP =>
      { st with compiledData :=
          { st.compiledData with whereList := callIfNecessaryArray st.data.whereList } }
  | .selectCursor =>
      { st with compiledData :=
          { st.compiledData with selectCursor := st.data.selectCursor.map callIfNecessary } }
  | .cursorPfx =>
      { st with compiledData := { st.compiledData with cursorPfx := st.data.cursorPfx } }
  | .orderIsUnique =>
      { st with compiledData := { st.compiledData with orderIsUnique := st.data.orderIsUnique } }
  | .limit =>
      { st with compiledData := { st.compiledData with limit := st.data.limit } }
  | .offset =>
      { st with compiledData := { st.compiledData with offset := st.data.offset } }
  | .flip =>
      { st with compiledData := { st.compiledData with flip := st.data.flip } }

/-- Record that callback c registered for phase p is about to run. -/
def pushCbTrace (p : Phase) (c : Cb) (st : QueryBuilder) : QueryBuilder :=
  { st with cbTrace := st.cbTrace ++ [(p, c)] }

/-- Run one callback of a leaf phase (a phase locked from inside a builtin
    callback; in every reachable state such a phase has only user
    callbacks, so the builtin cases are inert here). -/
def runCbLeaf (cenv : CbEnv) (q : Phase) (c : Cb) (st : QueryBuilder) : QueryBuilder :=
  match c with
  | Cb.user i => cenv i (pushCbTrace q c st)
  | _ => pushCbTrace q c st

/-- lock for a phase reached from inside a builtin callback. -/
def lockLeaf (cenv : CbEnv) (q : Phase) (st : QueryBuilder) : QueryBuilder :=
  if st.locks q then st
  else compilePhase q (markLocked q
    ((st.data.beforeLock q).foldl (fun s c => runCbLeaf cenv q c s) st))

/-- Run one callback registered for phase p.  builtinSelect is the callback
    the constructor registers for select: it locks selectCursor and, when a
    compiled cursor expression exists, appends it to the draft select list
    under the reserved alias (the select mutator cannot throw at that point,
    because the callbacks of a phase run before the phase is marked locked,
    so the push is inlined).  builtinWhere locks whereBound. -/
def runCb (cenv : CbEnv) (p : Phase) (c : Cb) (st : QueryBuilder) : QueryBuilder :=
  match c with
  | Cb.user i => cenv i (pushCbTrace p c st)
  | Cb.builtinWhere => lockLeaf cenv .whereBound (pushCbTrace p c st)
  | Cb.builtinSelect =>
      let s1 := lockLeaf cenv .selectCursor (pushCbTrace p c st)
      match s1.compiledData.selectCursor with
      | some sc =>
          { s1 with data :=
              { s1.data with select := s1.data.select ++ [(SQLGen.val sc, RawAlias.str "__cursor")] } }
      | none => s1

/-- lock of the source: no-op when already locked; otherwise run the
    registered pre-lock callbacks in order, mark the phase locked, then run
    the phase-specific compilation. -/
def lock (cenv : CbEnv) (p : Phase) (st : QueryBuilder) : QueryBuilder :=
  if st.locks p then st
  else compilePhase p (markLocked p
    ((st.data.beforeLock p).foldl (fun s c => runCb cenv p c s) st))

/-- Mutator beforeLock of the source: fails when the phase is already
    locked, otherwise appends the callback to the list for the phase. -/
def beforeLock (p : Phase) (i : Nat) (st : QueryBuilder) : Except QBError QueryBuilder :=
  match checkLock p st with
  | Except.error e => Except.error e
  | Except.ok _ =>
      Except.ok { st with data :=
        { st.data with beforeLock :=
            fun q => if q = p then st.data.beforeLock q ++ [Cb.user i] else st.data.beforeLock q } }

/-- Mutator setCursorComparator: store the comparator in draft state and
    immediately lock the cursorComparator phase. -/
def setCursorComparator (cenv : CbEnv) (f : CursorComparator) (st : QueryBuilder) :
    Except QBError QueryBuilder :=
  match checkLock .cursorComparator st with
  | Except.error e => Except.error e
  | Except.ok _ =>
      Except.ok (lock cenv .cursorComparator
        { st with data := { st.data with cursorComparator := some f } })

/-- cursorCondition: lock the comparator phase, then read the COMPILED
    comparator, which the lock switch never writes, and fail when it is
    absent. -/
def cursorCondition (cenv : CbEnv) (v : CursorValue) (isAfter : Bool) (st : QueryBuilder) :
    Except QBError (SQL × QueryBuilder) :=
  let s := lock cenv .cursorComparator st
  match s.compiledData.cursorComparator with
  | none => Except.error QBError.noCursorComparator
  | some f => Except.ok (f v isAfter, s)

/-- Mutator select: append a (generator, alias) pair to the draft select
    list. -/
def select (g : SQLGen) (a : RawAlias) (st : QueryBuilder) : Except QBError QueryBuilder :=
  match checkLock .select st with
  | Except.error e => Except.error e
  | Except.ok _ =>
      Except.ok { st with data := { st.data with select := st.data.select ++ [(g, a)] } }

/-- Mutator selectCursor: store the cursor expression generator. -/
def selectCursor (g : SQLGen) (st : QueryBuilder) : Except QBError QueryBuilder :=
  match checkLock .selectCursor st with
  | Except.error e => Except.error e
  | Except.ok _ =>
      Except.ok { st with data := { st.data with selectCursor := some g } }

/-- Mutator from of the source (from is reserved in Lean).  A null
    expression or a null alias is rejected; the JS default alias is a fresh
    anonymous identifier supplied by the caller side.  On success the from
    phase locks immediately. -/
def fromRel (cenv : CbEnv) (g : Option SQLGen) (a : Option SQL) (st : QueryBuilder) :
    Except QBError QueryBuilder :=
  match checkLock .fromRel st with
  | Except.error e => Except.error e
  | Except.ok _ =>
      match g with
      | none => Except.error QBError.noFromTableSource
      | some g1 =>
          match a with
          | none => Except.error QBError.noFromAlias
          | some a1 =>
              Except.ok (lock cenv .fromRel
                { st with data := { st.data with fromRel := some (g1, a1) } })

/-- Mutator where of the source (where is reserved in Lean): append a
    predicate generator. -/
def whereAdd (g : SQLGen) (st : QueryBuilder) : Except QBError QueryBuilder :=
  match checkLock .whereP st with
  | Except.error e => Except.error e
  | Except.ok _ =>
      Except.ok { st with data := { st.data with whereList := st.data.whereList ++ [g] } }

/-- Mutator whereBound: append a bound predicate to the lower or upper
    list.  The runtime check that isLower is a boolean cannot fail in the
    typed model. -/
def whereBound (g : SQLGen) (isLower : Bool) (st : QueryBuilder) : Except QBError QueryBuilder :=
  match checkLock .whereBound st with
  | Except.error e => Except.error e
  | Except.ok _ =>
      Except.ok { st with data :=
        { st.data with whereBound :=
            if isLower then ⟨st.data.whereBound.lower ++ [g], st.data.whereBound.upper⟩
            else ⟨st.data.whereBound.lower, st.data.whereBound.upper ++ [g]⟩ } }

/-- Mutator setOrderIsUnique.  Note: unlike every other mutator, the source
    does NOT call checkLock here; it writes the draft flag
    unconditionally. -/
def setOrderIsUnique (st : QueryBuilder) : Except QBError QueryBuilder :=
  Except.ok { st with data := { st.data with orderIsUnique := true } }

/-- Mutator orderBy: append an (expression, ascending) pair. -/
def orderBy (g : SQLGen) (ascending : Bool) (st : QueryBuilder) : Except QBError QueryBuilder :=
  match checkLock .orderBy st with
  | Except.error e => Except.error e
  | Except.ok _ =>
      Except.ok { st with data := { st.data with orderBy := st.data.orderBy ++ [(g, ascending)] } }

/-- Mutator limit: clamp with Math.max(0, n), store, and lock the phase. -/
def limit (cenv : CbEnv) (n : JSNum) (st : QueryBuilder) : Except QBError QueryBuilder :=
  match checkLock .limit st with
  | Except.error e => Except.error e
  | Except.ok _ =>
      Except.ok (lock cenv .limit
        { st with data := { st.data with limit := some (jsMax (JSNum.num 0) n) } })

/-- Mutator offset: clamp with Math.max(0, n), store, and lock the phase. -/
def offset (cenv : CbEnv) (n : JSNum) (st : QueryBuilder) : Except QBError QueryBuilder :=
  match checkLock .offset st with
  | Except.error e => Except.error e
  | Except.ok _ =>
      Except.ok (lock cenv .offset
        { st with data := { st.data with offset := some (jsMax (JSNum.num 0) n) } })

/-- Mutator flip: set the flag and lock the phase. -/
def flip (cenv : CbEnv) (st : QueryBuilder) : Except QBError QueryBuilder :=
  match checkLock .flip st with
  | Except.error e => Except.error e
  | Except.ok _ =>
      Except.ok (lock cenv .flip { st with data := { st.data with flip := true } })

/-- The private finalize marker. -/
def finalizeQB (st : QueryBuilder) : QueryBuilder :=
  { st with finalized := true }

/-- lockEverything of the source: mark finalized, then lock the phases in
    the fixed dependency order. -/
def lockEverything (cenv : CbEnv) (st : QueryBuilder) : QueryBuilder :=
  lock cenv .select
    (lock cenv .selectCursor
      (lock cenv .whereP
        (lock cenv .cursorComparator
          (lock cenv .orderBy
            (lock cenv .limit
              (lock cenv .offset
                (lock cenv .join
                  (lock cenv .flip
                    (lock cenv .fromRel (finalizeQB st))))))))))

/-- Reader isOrderUnique: lock the flag phase and read the compiled flag. -/
def isOrderUnique (cenv : CbEnv) (st : QueryBuilder) : Bool × QueryBuilder :=
  let s := lock cenv .orderIsUnique st
  (s.compiledData.orderIsUnique, s)

/-- getTableAlias: lock from and return the compiled alias; fails when no
    from source was supplied (the MissingFromSource condition). -/
def getTableAlias (cenv : CbEnv) (st : QueryBuilder) : Except QBError (SQL × QueryBuilder) :=
  let s := lock cenv .fromRel st
  match s.compiledData.fromRel with
  | none => Except.error QBError.noFromSupplied
  | some fa => Except.ok (fa.2, s)

/-- AND a nonempty clause list, exactly as the source template does. -/
def andAll (l : List SQL) : SQL :=
  cats [SQL.raw "(", sqlJoin l (SQL.raw ") and ("), SQL.raw ")"]

/-- The bound clause of one side: AND of the list, or the literal true when
    the list is empty. -/
def boundClauseOf (l : List SQL) : SQL :=
  if l = [] then SQL.literal (Lit.bool true) else andAll l

/-- The full where clause from its parts: 1 = 1 when no clause remains. -/
def whereClauseOf (l : List SQL) : SQL :=
  if l = [] then SQL.raw "1 = 1" else andAll l

/-- The null guard added by addNullCase in buildWhereClause. -/
def nullGuardOf (a : SQL) : SQL :=
  cats [SQL.raw "not (", a, SQL.raw " is null)"]

/-- buildWhereBoundClause: lock whereBound and compile the requested side. -/
def buildWhereBoundClause (cenv : CbEnv) (isLower : Bool) (st : QueryBuilder) :
    SQL × QueryBuilder :=
  let s := lock cenv .whereBound st
  (boundClauseOf (if isLower then s.compiledData.whereBound.lower
                  else s.compiledData.whereBound.upper), s)

/-- buildWhereClause: lock where, then AND in order the optional null
    guard, the compiled predicates, and the requested bound clauses. -/
def buildWhereClause (cenv : CbEnv) (includeLowerBound includeUpperBound addNullCase : Bool)
    (st : QueryBuilder) : Except QBError (SQL × QueryBuilder) :=
  let s := lock cenv .whereP st
  match (if addNullCase then
           match getTableAlias cenv s with
           | Except.error e => Except.error e
           | Except.ok ta => Except.ok ([nullGuardOf ta.1], ta.2)
         else Except.ok (([] : List SQL), s)) with
  | Except.error e => Except.error e
  | Except.ok gs =>
      let s1 := gs.2
      let lb := if includeLowerBound then
                  (fun r => ([r.1], r.2)) (buildWhereBoundClause cenv true s1)
                else ([], s1)
      let ub := if includeUpperBound then
                  (fun r => ([r.1], r.2)) (buildWhereBoundClause cenv false lb.2)
                else ([], lb.2)
      Except.ok (whereClauseOf (gs.1 ++ s1.compiledData.whereList ++ lb.1 ++ ub.1), ub.2)

/-- buildSelectFields: lock everything and emit expr as alias pairs. -/
def buildSelectFields (cenv : CbEnv) (st : QueryBuilder) : SQL × QueryBuilder :=
  let s := lockEverything cenv st
  (sqlJoin (s.compiledData.select.map
      (fun fa => cats [fa.1, SQL.raw " as ", SQL.ident [fa.2]])) (SQL.raw ", "), s)

/-- buildSelectJson: a JSON object over the selected pairs, or to_json of
    the whole row when nothing was selected; addNullCase wraps in a null
    test of the row alias. -/
def buildSelectJson (cenv : CbEnv) (addNullCase : Bool) (st : QueryBuilder) :
    Except QBError (SQL × QueryBuilder) :=
  let s := lockEverything cenv st
  match (if s.compiledData.select = [] then
           match getTableAlias cenv s with
           | Except.error e => Except.error e
           | Except.ok ta => Except.ok (cats [SQL.raw "to_json(", ta.1, SQL.raw ".*)"], ta.2)
         else
           Except.ok (cats [SQL.raw "json_build_object(",
             sqlJoin (s.compiledData.select.map
               (fun fa => cats [SQL.literal (Lit.alias fa.2), SQL.raw ", ", fa.1]))
               (SQL.raw ", "),
             SQL.raw ")"], s)) with
  | Except.error e => Except.error e
  | Except.ok base =>
      if addNullCase then
        match getTableAlias cenv base.2 with
        | Except.error e => Except.error e
        | Except.ok ta =>
            Except.ok (cats [SQL.raw "(case when ", ta.1,
              SQL.raw " is null then null else ", base.1, SQL.raw " end)"], ta.2)
      else Except.ok base

/-- The limit clause: emitted exactly when Number.isSafeInteger holds of
    the compiled limit. -/
def limitFragment (o : Option JSNum) : SQL :=
  match o with
  | some n => if jsIsSafeInteger n then SQL.cat (SQL.raw "limit ") (SQL.literal (Lit.jsnum n))
              else SQL.nil
  | none => SQL.nil

/-- The offset clause: emitted exactly when the compiled offset is truthy
    (the source tests this.compiledData.offset itself, not integrality). -/
def offsetFragment (o : Option JSNum) : SQL :=
  match o with
  | some n => if jsTruthy n then SQL.cat (SQL.raw "offset ") (SQL.literal (Lit.jsnum n))
              else SQL.nil
  | none => SQL.nil

/-- One order by entry: ASC exactly when ascending xor flip is true. -/
def orderByEntry (e : SQL) (ascending flipped : Bool) : SQL :=
  cats [e, SQL.raw " ", SQL.raw (if Bool.xor ascending flipped then "ASC" else "DESC")]

/-- The order by clause over the compiled entries; empty entries emit
    nothing. -/
def orderByFragment (entries : List (SQL × Bool)) (flipped : Bool) : SQL :=
  if entries = [] then SQL.nil
  else cats [SQL.raw "order by ",
    sqlJoin (entries.map (fun ea => orderByEntry ea.1 ea.2 flipped)) (SQL.raw ",")]

/-- The from clause, skipped when no from source is compiled (a falsy
    interpolation).  When present, the alias equals what getTableAlias
    returns, since the phase is locked at this point. -/
def fromFragment (o : Option (SQL × SQL)) : SQL :=
  match o with
  | some fa => cats [SQL.raw "from ", fa.1, SQL.raw " as ", fa.2]
  | none => SQL.nil

/-- The joins, skipped when the compiled list is empty. -/
def joinFragment (l : List SQL) : SQL :=
  if l = [] then SQL.nil else sqlJoin l (SQL.raw " ")

/-- The inner select statement assembled by build before any wrapping. -/
def coreFragment (fields fromF joinF whereF orderF limitF offsetF : SQL) : SQL :=
  cats [SQL.raw "select ", fields, fromF, joinF, SQL.raw " where ", whereF,
        orderF, limitF, offsetF]

/-- The reversal wrapper used when flip is set: re-sort the named
    subexpression descending by a windowed row number over a constant
    partition. -/
def flipWrapper (k : Nat) (inner : SQL) : SQL :=
  cats [SQL.raw "with ", SQL.ident [RawAlias.sym k], SQL.raw " as (", inner,
        SQL.raw ") select * from ", SQL.ident [RawAlias.sym k],
        SQL.raw " order by (row_number() over (partition by 1)) desc"]

/-- The JSON array aggregation wrapper with the empty array fallback. -/
def aggWrapper (k : Nat) (inner : SQL) : SQL :=
  cats [SQL.raw "select coalesce((select json_agg(",
        SQL.ident [RawAlias.sym k, RawAlias.str "object"],
        SQL.raw ") from (", inner, SQL.raw ") as ",
        SQL.ident [RawAlias.sym k],
        SQL.raw "), \x27[]\x27::json)"]

structure BuildOptions where
  asJson : Bool := false
  asJsonAggregate : Bool := false
  onlyJsonField : Bool := false
  addNullCase : Bool := false

/-- build of the source: finalize, assemble the projection, the from and
    join clauses, the where clause with both bounds, the order by with flip
    adjusted directions, limit and offset, then apply the flip wrapper and
    the aggregate wrapper as configured. -/
def build (cenv : CbEnv) (opts : BuildOptions) (st : QueryBuilder) :
    Except QBError (SQL × QueryBuilder) :=
  let s := lockEverything cenv st
  if opts.onlyJsonField then buildSelectJson cenv opts.addNullCase s
  else
    match (if opts.asJson || opts.asJsonAggregate then
             match buildSelectJson cenv opts.addNullCase s with
             | Except.error e => Except.error e
             | Except.ok j => Except.ok (SQL.cat j.1 (SQL.raw " as object"), j.2)
           else Except.ok (buildSelectFields cenv s)) with
    | Except.error e => Except.error e
    | Except.ok fs =>
        let s1 := fs.2
        let fromF := fromFragment s1.compiledData.fromRel
        let joinF := joinFragment s1.compiledData.join
        match buildWhereClause cenv true true opts.addNullCase s1 with
        | Except.error e => Except.error e
        | Except.ok wc =>
            let s2 := wc.2
            let core := coreFragment fs.1 fromF joinF wc.1
              (orderByFragment s2.compiledData.orderBy s2.compiledData.flip)
              (limitFragment s2.compiledData.limit)
              (offsetFragment s2.compiledData.offset)
            let fl := if s2.compiledData.flip then
                        (flipWrapper s2.freshId core, { s2 with freshId := s2.freshId + 1 })
                      else (core, s2)
            let ag := if opts.asJsonAggregate then
                        (aggWrapper fl.2.freshId fl.1, { fl.2 with freshId := fl.2.freshId + 1 })
                      else fl
            Except.ok ag

end QueryBuilder

/-- One mutator call, for reasoning about arbitrary prior call sequences. -/
inductive Op
  | beforeLockOp (p : Phase) (i : Nat)
  | setCursorComparatorOp (f : CursorComparator)
  | selectOp (g : SQLGen) (a : RawAlias)
  | selectCursorOp (g : SQLGen)
  | fromOp (g : Option SQLGen) (a : Option SQL)
  | whereOp (g : SQLGen)
  | whereBoundOp (g : SQLGen) (isLower : Bool)
  | setOrderIsUniqueOp
  | orderByOp (g : SQLGen) (ascending : Bool)
  | limitOp (n : JSNum)
  | offsetOp (n : JSNum)
  | flipOp

/-- Run one mutator. -/
def runOp (cenv : CbEnv) (o : Op) (st : QueryBuilder) : Except QBError QueryBuilder :=
  match o with
  | .beforeLockOp p i => st.beforeLock p i
  | .setCursorComparatorOp f => st.setCursorComparator cenv f
  | .selectOp g a => st.select g a
  | .selectCursorOp g => st.selectCursor g
  | .fromOp g a => st.fromRel cenv g a
  | .whereOp g => st.whereAdd g
  | .whereBoundOp g b => st.whereBound g b
  | .setOrderIsUniqueOp => st.setOrderIsUnique
  | .orderByOp g b => st.orderBy g b
  | .limitOp n => st.limit cenv n
  | .offsetOp n => st.offset cenv n
  | .flipOp => st.flip cenv

/-- Run a list of mutators, stopping at the first error. -/
def runOps (cenv : CbEnv) (ops : List Op) (st : QueryBuilder) : Except QBError QueryBuilder :=
  match ops with
  | [] => Except.ok st
  | o :: rest =>
      match runOp cenv o st with
      | Except.error e => Except.error e
      | Except.ok s1 => runOps cenv rest s1

/-- A callback environment is tame when every callback leaves the lock
    machinery alone: the lock flags, both instrumentation traces, and the
    callback registration lists.  Real callbacks configure draft data; they
    do not reach into the lock bookkeeping. -/
def TameEnv (cenv : CbEnv) : Prop :=
  ∀ i st, (cenv i st).locks = st.locks ∧ (cenv i st).lockTrace = st.lockTrace ∧
    (cenv i st).cbTrace = st.cbTrace ∧ (cenv i st).data.beforeLock = st.data.beforeLock

/-- The inert callback environment. -/
def cenvId : CbEnv := fun _ st => st


/-- The fixed order in which finalization locks the phases, whereBound
    being locked by the callback of the where phase. -/
def lockOrder : List Phase :=
  [.fromRel, .flip, .join, .offset, .limit, .orderBy, .cursorComparator,
   .whereBound, .whereP, .selectCursor, .select]

/-- A builder is well formed for callback bookkeeping when no builtin
    callback sits in the list of the phase that this builtin itself locks;
    every reachable state satisfies this, since only the constructor
    registers builtins, and only for select and where. -/
def WFBuilder (st : QueryBuilder) : Prop :=
  (∀ c ∈ st.data.beforeLock .selectCursor, c ≠ Cb.builtinSelect) ∧
  (∀ c ∈ st.data.beforeLock .whereBound, c ≠ Cb.builtinWhere)

/-- All eleven phases that finalization locks are locked. -/
def FullyLocked (st : QueryBuilder) : Prop :=
  st.locks .fromRel = true ∧ st.locks .flip = true ∧ st.locks .join = true ∧
  st.locks .offset = true ∧ st.locks .limit = true ∧ st.locks .orderBy = true ∧
  st.locks .cursorComparator = true ∧ st.locks .whereBound = true ∧
  st.locks .whereP = true ∧ st.locks .selectCursor = true ∧ st.locks .select = true

/-- The phases lockEverything locks directly before reaching where,
    selectCursor and select. -/
def simpleSeven : List Phase :=
  [.fromRel, .flip, .join, .offset, .limit, .orderBy, .cursorComparator]

/-- The shape every builder reachable from the constructor by mutator
    calls has: the builtin callbacks head the select and where lists, all
    other registered callbacks are user callbacks, and the phases that
    only finalization locks are still open. -/
def Reach (st : QueryBuilder) : Prop :=
  (∃ L, st.data.beforeLock .select = Cb.builtinSelect :: L ∧ ∀ c ∈ L, ∃ i, c = Cb.user i) ∧
  (∃ L, st.data.beforeLock .whereP = Cb.builtinWhere :: L ∧ ∀ c ∈ L, ∃ i, c = Cb.user i) ∧
  (∀ p, p ≠ Phase.select → p ≠ Phase.whereP →
    ∀ c ∈ st.data.beforeLock p, ∃ i, c = Cb.user i) ∧
  st.locks .whereBound = false ∧ st.locks .whereP = false ∧
  st.locks .selectCursor = false ∧ st.locks .select = false

/-- Stand-in cursor value. -/
def cv0 : CursorValue := ()

/-- isSafeInteger applied to a possibly-null number (null is not one). -/
def isSafeIntegerOpt : Option JSNum → Bool
  | some n => jsIsSafeInteger n
  | none => false

/-- Truthiness of a possibly-null number (null is falsy). -/
def jsTruthyOpt : Option JSNum → Bool
  | some n => jsTruthy n
  | none => false

/-- A builder with every phase locked, for exercising the double-lock
    paths. -/
def lockedEverywhere : QueryBuilder :=
  { newQueryBuilder with locks := fun _ => true }

/-- A fresh builder that has been given a from source "users" aliased u. -/
def qbFrom : QueryBuilder :=
  match QueryBuilder.fromRel cenvId (some (SQLGen.val (SQL.raw "users")))
      (some (SQL.ident [RawAlias.str "u"])) newQueryBuilder with
  | Except.ok s => s
  | Except.error _ => newQueryBuilder

/-- The same builder additionally flipped. -/
def qbFlipFrom : QueryBuilder :=
  match QueryBuilder.flip cenvId qbFrom with
  | Except.ok s => s
  | Except.error _ => qbFrom

/-- The mutator sequence used by the C3 witness and the state it
    produces. -/
def opsW : List Op :=
  [Op.limitOp (JSNum.num 3), Op.orderByOp (SQLGen.val (SQL.raw "c")) true,
   Op.beforeLockOp Phase.orderBy 7]

def qbOpsW : QueryBuilder :=
  match runOps cenvId opsW newQueryBuilder with
  | Except.ok s => s
  | Except.error _ => newQueryBuilder

/-- The inner select statement build assembles for a finalized builder
    with a from source, in plain column mode without addNullCase. -/
def assembledCore (st : QueryBuilder) (f al : SQL) : SQL :=
  QueryBuilder.coreFragment
    (sqlJoin (st.compiledData.select.map
      (fun fa => cats [fa.1, SQL.raw " as ", SQL.ident [fa.2]])) (SQL.raw ", "))
    (cats [SQL.raw "from ", f, SQL.raw " as ", al])
    (QueryBuilder.joinFragment st.compiledData.join)
    (QueryBuilder.whereClauseOf (st.compiledData.whereList ++
      [QueryBuilder.boundClauseOf st.compiledData.whereBound.lower,
       QueryBuilder.boundClauseOf st.compiledData.whereBound.upper]))
    (QueryBuilder.orderByFragment st.compiledData.orderBy st.compiledData.flip)
    (QueryBuilder.limitFragment st.compiledData.limit)
    (QueryBuilder.offsetFragment st.compiledData.offset)

/-- The flat select field list build assembles. -/
def flatFieldsOf (st : QueryBuilder) : SQL :=
  sqlJoin (st.compiledData.select.map
    (fun fa => cats [fa.1, SQL.raw " as ", SQL.ident [fa.2]])) (SQL.raw ", ")

/-- The JSON object shape build assembles for a nonempty select list. -/
def jsonShapeOf (sel : List (SQL × RawAlias)) : SQL :=
  cats [SQL.raw "json_build_object(",
    sqlJoin (sel.map
      (fun fa => cats [SQL.literal (Lit.alias fa.2), SQL.raw ", ", fa.1])) (SQL.raw ", "),
    SQL.raw ")"]

/-- The inner select statement build assembles when no from source is
    compiled: the from slot of the template is the empty contribution of a
    falsy interpolation, that is, the FROM clause is omitted. -/
def assembledCoreNoFromWith (fields : SQL) (st : QueryBuilder) : SQL :=
  QueryBuilder.coreFragment fields SQL.nil
    (QueryBuilder.joinFragment st.compiledData.join)
    (QueryBuilder.whereClauseOf (st.compiledData.whereList ++
      [QueryBuilder.boundClauseOf st.compiledData.whereBound.lower,
       QueryBuilder.boundClauseOf st.compiledData.whereBound.upper]))
    (QueryBuilder.orderByFragment st.compiledData.orderBy st.compiledData.flip)
    (QueryBuilder.limitFragment st.compiledData.limit)
    (QueryBuilder.offsetFragment st.compiledData.offset)

/-- The reversal wrapper as build applies it: only when flip is set. -/
def flipWrap (st : QueryBuilder) (core : SQL) : SQL :=
  if st.compiledData.flip = true then QueryBuilder.flipWrapper st.freshId core else core

/-- The aggregation wrapper as build applies it, using the next fresh
    identifier after the one the flip wrapper may have consumed. -/
def aggWrapOf (st : QueryBuilder) (inner : SQL) : SQL :=
  QueryBuilder.aggWrapper
    (if st.compiledData.flip = true then st.freshId + 1 else st.freshId) inner

/-- A fresh builder that selected one expression and has no from source. -/
def qbSel : QueryBuilder :=
  match QueryBuilder.select (SQLGen.val (SQL.raw "1")) (RawAlias.str "one")
      newQueryBuilder with
  | Except.ok s => s
  | Except.error _ => newQueryBuilder

/-- The states produced by the C10 witness mutations. -/
def qbLim5 : QueryBuilder :=
  match QueryBuilder.limit cenvId (JSNum.num (-5)) newQueryBuilder with
  | Except.ok s => s
  | Except.error _ => newQueryBuilder

def qbOffNinf : QueryBuilder :=
  match QueryBuilder.offset cenvId JSNum.ninf newQueryBuilder with
  | Except.ok s => s
  | Except.error _ => newQueryBuilder

theorem tameId : TameEnv cenvId := fun _ _ => ⟨rfl, rfl, rfl, rfl⟩

namespace QueryBuilder

theorem compile_locks (p : Phase) (st : QueryBuilder) :
    (compilePhase p st).locks = st.locks := by
  cases p <;> try rfl
  case fromRel => cases h : st.data.fromRel <;> simp [compilePhase, h]

theorem compile_lockTrace (p : Phase) (st : QueryBuilder) :
    (compilePhase p st).lockTrace = st.lockTrace := by
  cases p <;> try rfl
  case fromRel => cases h : st.data.fromRel <;> simp [compilePhase, h]

theorem compile_cbTrace (p : Phase) (st : QueryBuilder) :
    (compilePhase p st).cbTrace = st.cbTrace := by
  cases p <;> try rfl
  case fromRel => cases h : st.data.fromRel <;> simp [compilePhase, h]

theorem compile_data (p : Phase) (st : QueryBuilder) :
    (compilePhase p st).data = st.data := by
  cases p <;> try rfl
  case fromRel => cases h : st.data.fromRel <;> simp [compilePhase, h]

theorem runCbLeaf_fields (cenv : CbEnv) (hT : TameEnv cenv) (q : Phase) (c : Cb)
    (st : QueryBuilder) :
    (runCbLeaf cenv q c st).locks = st.locks ∧
    (runCbLeaf cenv q c st).lockTrace = st.lockTrace ∧
    (runCbLeaf cenv q c st).data.beforeLock = st.data.beforeLock ∧
    (runCbLeaf cenv q c st).cbTrace = st.cbTrace ++ [(q, c)] := by
  cases c with
  | user i =>
      obtain ⟨h1, h2, h3, h4⟩ := hT i (pushCbTrace q (Cb.user i) st)
      exact ⟨h1.trans rfl, h2.trans rfl, h4.trans rfl, h3.trans rfl⟩
  | builtinSelect => exact ⟨rfl, rfl, rfl, rfl⟩
  | builtinWhere => exact ⟨rfl, rfl, rfl, rfl⟩

theorem runCbLeaf_fold (cenv : CbEnv) (hT : TameEnv cenv) (q : Phase) :
    ∀ (L : List Cb) (st : QueryBuilder),
    (L.foldl (fun s c => runCbLeaf cenv q c s) st).locks = st.locks ∧
    (L.foldl (fun s c => runCbLeaf cenv q c s) st).lockTrace = st.lockTrace ∧
    (L.foldl (fun s c => runCbLeaf cenv q c s) st).data.beforeLock = st.data.beforeLock ∧
    (L.foldl (fun s c => runCbLeaf cenv q c s) st).cbTrace =
      st.cbTrace ++ L.map (fun c => (q, c)) := by
  intro L
  induction L with
  | nil => intro st; simp
  | cons c L ih =>
      intro st
      obtain ⟨h1, h2, h3, h4⟩ := runCbLeaf_fields cenv hT q c st
      obtain ⟨g1, g2, g3, g4⟩ := ih (runCbLeaf cenv q c st)
      refine ⟨?_, ?_, ?_, ?_⟩
      · rw [List.foldl_cons, g1, h1]
      · rw [List.foldl_cons, g2, h2]
      · rw [List.foldl_cons, g3, h3]
      · rw [List.foldl_cons, g4, h4, List.map_cons, List.append_assoc]; rfl

theorem lockLeaf_locks (cenv : CbEnv) (hT : TameEnv cenv) (q : Phase) (st : QueryBuilder)
    (r : Phase) : (lockLeaf cenv q st).locks r = if r = q then true else st.locks r := by
  by_cases h : st.locks q
  · simp only [lockLeaf, h, if_true]
    by_cases hr : r = q
    · simp [hr, h]
    · simp [hr]
  · simp only [lockLeaf, if_neg h, compile_locks, markLocked]
    obtain ⟨g1, _, _, _⟩ := runCbLeaf_fold cenv hT q (st.data.beforeLock q) st
    simp [g1]

theorem lockLeaf_lockTrace (cenv : CbEnv) (hT : TameEnv cenv) (q : Phase) (st : QueryBuilder) :
    (lockLeaf cenv q st).lockTrace =
      st.lockTrace ++ (if st.locks q then [] else [q]) := by
  by_cases h : st.locks q
  · simp [lockLeaf, h]
  · simp only [lockLeaf, if_neg h, compile_lockTrace, markLocked, if_neg h]
    obtain ⟨_, g2, _, _⟩ := runCbLeaf_fold cenv hT q (st.data.beforeLock q) st
    simp [g2]

theorem lockLeaf_beforeLock (cenv : CbEnv) (hT : TameEnv cenv) (q : Phase)
    (st : QueryBuilder) :
    (lockLeaf cenv q st).data.beforeLock = st.data.beforeLock := by
  by_cases h : st.locks q
  · simp [lockLeaf, h]
  · simp only [lockLeaf, if_neg h, compile_data, markLocked]
    obtain ⟨_, _, g3, _⟩ := runCbLeaf_fold cenv hT q (st.data.beforeLock q) st
    simpa using g3

theorem lockLeaf_cbTrace (cenv : CbEnv) (hT : TameEnv cenv) (q : Phase) (st : QueryBuilder) :
    (lockLeaf cenv q st).cbTrace =
      st.cbTrace ++ (if st.locks q then []
                     else (st.data.beforeLock q).map (fun c => (q, c))) := by
  by_cases h : st.locks q
  · simp [lockLeaf, h]
  · simp only [lockLeaf, if_neg h, compile_cbTrace, markLocked, if_neg h]
    obtain ⟨_, _, _, g4⟩ := runCbLeaf_fold cenv hT q (st.data.beforeLock q) st
    simp [g4]

theorem runCb_user_fields (cenv : CbEnv) (hT : TameEnv cenv) (p : Phase) (i : Nat)
    (st : QueryBuilder) :
    (runCb cenv p (Cb.user i) st).locks = st.locks ∧
    (runCb cenv p (Cb.user i) st).lockTrace = st.lockTrace ∧
    (runCb cenv p (Cb.user i) st).data.beforeLock = st.data.beforeLock ∧
    (runCb cenv p (Cb.user i) st).cbTrace = st.cbTrace ++ [(p, Cb.user i)] := by
  obtain ⟨h1, h2, h3, h4⟩ := hT i (pushCbTrace p (Cb.user i) st)
  exact ⟨h1.trans rfl, h2.trans rfl, h4.trans rfl, h3.trans rfl⟩

theorem runCb_builtinWhere_fields (cenv : CbEnv) (hT : TameEnv cenv) (p : Phase)
    (st : QueryBuilder) :
    (∀ r, (runCb cenv p Cb.builtinWhere st).locks r =
        if r = Phase.whereBound then true else st.locks r) ∧
    (runCb cenv p Cb.builtinWhere st).lockTrace =
      st.lockTrace ++ (if st.locks .whereBound then [] else [Phase.whereBound]) ∧
    (runCb cenv p Cb.builtinWhere st).data.beforeLock = st.data.beforeLock ∧
    (runCb cenv p Cb.builtinWhere st).cbTrace =
      st.cbTrace ++ [(p, Cb.builtinWhere)] ++
        (if st.locks .whereBound then []
         else (st.data.beforeLock .whereBound).map (fun c => (Phase.whereBound, c))) := by
  have e : runCb cenv p Cb.builtinWhere st =
      lockLeaf cenv .whereBound (pushCbTrace p Cb.builtinWhere st) := rfl
  refine ⟨?_, ?_, ?_, ?_⟩
  · intro r
    rw [e, lockLeaf_locks cenv hT _ _ r]; rfl
  · rw [e, lockLeaf_lockTrace cenv hT]; rfl
  · rw [e, lockLeaf_beforeLock cenv hT]; rfl
  · rw [e, lockLeaf_cbTrace cenv hT]
    simp [pushCbTrace, List.append_assoc]

theorem runCb_builtinSelect_fields (cenv : CbEnv) (hT : TameEnv cenv) (p : Phase)
    (st : QueryBuilder) :
    (∀ r, (runCb cenv p Cb.builtinSelect st).locks r =
        if r = Phase.selectCursor then true else st.locks r) ∧
    (runCb cenv p Cb.builtinSelect st).lockTrace =
      st.lockTrace ++ (if st.locks .selectCursor then [] else [Phase.selectCursor]) ∧
    (runCb cenv p Cb.builtinSelect st).data.beforeLock = st.data.beforeLock ∧
    (runCb cenv p Cb.builtinSelect st).cbTrace =
      st.cbTrace ++ [(p, Cb.builtinSelect)] ++
        (if st.locks .selectCursor then []
         else (st.data.beforeLock .selectCursor).map (fun c => (Phase.selectCursor, c))) := by
  have e : runCb cenv p Cb.builtinSelect st =
      (let s1 := lockLeaf cenv .selectCursor (pushCbTrace p Cb.builtinSelect st)
       match s1.compiledData.selectCursor with
       | some sc =>
           { s1 with data :=
               { s1.data with select := s1.data.select ++ [(SQLGen.val sc, RawAlias.str "__cursor")] } }
       | none => s1) := rfl
  rw [e]
  cases hm : (lockLeaf cenv .selectCursor (pushCbTrace p Cb.builtinSelect st)).compiledData.selectCursor with
  | none =>
      simp only [hm]
      refine ⟨?_, ?_, ?_, ?_⟩
      · intro r
        rw [lockLeaf_locks cenv hT _ _ r]; rfl
      · rw [lockLeaf_lockTrace cenv hT]; rfl
      · rw [lockLeaf_beforeLock cenv hT]; rfl
      · rw [lockLeaf_cbTrace cenv hT]
        simp [pushCbTrace, List.append_assoc]
  | some sc =>
      simp only [hm]
      refine ⟨?_, ?_, ?_, ?_⟩
      · intro r
        show (lockLeaf cenv .selectCursor (pushCbTrace p Cb.builtinSelect st)).locks r = _
        rw [lockLeaf_locks cenv hT _ _ r]; rfl
      · show (lockLeaf cenv .selectCursor (pushCbTrace p Cb.builtinSelect st)).lockTrace = _
        rw [lockLeaf_lockTrace cenv hT]; rfl
      · show (lockLeaf cenv .selectCursor (pushCbTrace p Cb.builtinSelect st)).data.beforeLock = _
        rw [lockLeaf_beforeLock cenv hT]; rfl
      · show (lockLeaf cenv .selectCursor (pushCbTrace p Cb.builtinSelect st)).cbTrace = _
        rw [lockLeaf_cbTrace cenv hT]
        simp [pushCbTrace, List.append_assoc]

theorem runCb_beforeLock (cenv : CbEnv) (hT : TameEnv cenv) (p : Phase) (c : Cb)
    (st : QueryBuilder) :
    (runCb cenv p c st).data.beforeLock = st.data.beforeLock := by
  cases c with
  | user i => exact (runCb_user_fields cenv hT p i st).2.2.1
  | builtinWhere => exact (runCb_builtinWhere_fields cenv hT p st).2.2.1
  | builtinSelect => exact (runCb_builtinSelect_fields cenv hT p st).2.2.1

theorem runCb_locks_mono (cenv : CbEnv) (hT : TameEnv cenv) (p : Phase) (c : Cb)
    (st : QueryBuilder) (r : Phase) (h : st.locks r = true) :
    (runCb cenv p c st).locks r = true := by
  cases c with
  | user i => rw [(runCb_user_fields cenv hT p i st).1]; exact h
  | builtinWhere =>
      rw [(runCb_builtinWhere_fields cenv hT p st).1 r]
      by_cases hr : r = Phase.whereBound <;> simp [hr, h]
  | builtinSelect =>
      rw [(runCb_builtinSelect_fields cenv hT p st).1 r]
      by_cases hr : r = Phase.selectCursor <;> simp [hr, h]

theorem runCb_fold_beforeLock (cenv : CbEnv) (hT : TameEnv cenv) (p : Phase) :
    ∀ (L : List Cb) (st : QueryBuilder),
    (L.foldl (fun s c => runCb cenv p c s) st).data.beforeLock = st.data.beforeLock := by
  intro L
  induction L with
  | nil => intro st; rfl
  | cons c L ih =>
      intro st
      rw [List.foldl_cons, ih, runCb_beforeLock cenv hT]

theorem runCb_fold_locks_mono (cenv : CbEnv) (hT : TameEnv cenv) (p : Phase) :
    ∀ (L : List Cb) (st : QueryBuilder) (r : Phase), st.locks r = true →
    (L.foldl (fun s c => runCb cenv p c s) st).locks r = true := by
  intro L
  induction L with
  | nil => intro st r h; exact h
  | cons c L ih =>
      intro st r h
      rw [List.foldl_cons]
      exact ih _ r (runCb_locks_mono cenv hT p c st r h)

theorem runCb_fold_user (cenv : CbEnv) (hT : TameEnv cenv) (p : Phase) :
    ∀ (L : List Cb), (∀ c ∈ L, ∃ i, c = Cb.user i) → ∀ (st : QueryBuilder),
    (L.foldl (fun s c => runCb cenv p c s) st).locks = st.locks ∧
    (L.foldl (fun s c => runCb cenv p c s) st).lockTrace = st.lockTrace ∧
    (L.foldl (fun s c => runCb cenv p c s) st).data.beforeLock = st.data.beforeLock ∧
    (L.foldl (fun s c => runCb cenv p c s) st).cbTrace =
      st.cbTrace ++ L.map (fun c => (p, c)) := by
  intro L
  induction L with
  | nil => intro _ st; simp
  | cons c L ih =>
      intro hU st
      obtain ⟨i, hi⟩ := hU c (List.mem_cons_self c L)
      subst hi
      obtain ⟨h1, h2, h3, h4⟩ := runCb_user_fields cenv hT p i st
      obtain ⟨g1, g2, g3, g4⟩ := ih (fun c hc => hU c (List.mem_cons_of_mem _ hc))
        (runCb cenv p (Cb.user i) st)
      refine ⟨?_, ?_, ?_, ?_⟩
      · rw [List.foldl_cons, g1, h1]
      · rw [List.foldl_cons, g2, h2]
      · rw [List.foldl_cons, g3, h3]
      · rw [List.foldl_cons, g4, h4, List.map_cons, List.append_assoc]; rfl

theorem lock_locked (cenv : CbEnv) (p : Phase) (st : QueryBuilder)
    (h : st.locks p = true) : lock cenv p st = st := by
  simp [lock, h]

theorem lock_locks_self (cenv : CbEnv) (p : Phase) (st : QueryBuilder) :
    (lock cenv p st).locks p = true := by
  by_cases h : st.locks p
  · rw [lock_locked cenv p st h]; exact h
  · simp [lock, h, compile_locks, markLocked]

theorem lock_beforeLock (cenv : CbEnv) (hT : TameEnv cenv) (p : Phase) (st : QueryBuilder) :
    (lock cenv p st).data.beforeLock = st.data.beforeLock := by
  by_cases h : st.locks p
  · rw [lock_locked cenv p st h]
  · simp only [lock, if_neg h, compile_data, markLocked]
    exact runCb_fold_beforeLock cenv hT p _ st

theorem lock_locks_mono (cenv : CbEnv) (hT : TameEnv cenv) (p : Phase) (st : QueryBuilder)
    (r : Phase) (h : st.locks r = true) : (lock cenv p st).locks r = true := by
  by_cases hp : st.locks p
  · rw [lock_locked cenv p st hp]; exact h
  · simp only [lock, if_neg hp, compile_locks, markLocked]
    by_cases hr : r = p
    · simp [hr]
    · simp only [if_neg hr]
      exact runCb_fold_locks_mono cenv hT p _ st r h

/-- Characterisation of lock for a phase whose callback list holds only
    user callbacks (every phase except select and where in reachable
    states). -/
theorem lock_simple (cenv : CbEnv) (hT : TameEnv cenv) (p : Phase) (st : QueryBuilder)
    (hU : ∀ c ∈ st.data.beforeLock p, ∃ i, c = Cb.user i) :
    (∀ r, (lock cenv p st).locks r = if r = p then true else st.locks r) ∧
    (lock cenv p st).lockTrace = st.lockTrace ++ (if st.locks p then [] else [p]) ∧
    (lock cenv p st).data.beforeLock = st.data.beforeLock := by
  by_cases h : st.locks p
  · rw [lock_locked cenv p st h]
    refine ⟨?_, by simp [h], rfl⟩
    intro r
    by_cases hr : r = p
    · simp [hr, h]
    · simp [hr]
  · obtain ⟨g1, g2, g3, _⟩ := runCb_fold_user cenv hT p (st.data.beforeLock p) hU st
    simp only [lock, if_neg h, compile_locks, compile_lockTrace, compile_data, markLocked]
    exact ⟨fun r => by simp [g1], by simp [g2, h], g3⟩

/-- Characterisation of lock for the where phase when its list is the
    builtin callback followed by user callbacks (as the constructor set it
    up): it first locks whereBound, then where itself. -/
theorem lock_whereP (cenv : CbEnv) (hT : TameEnv cenv) (st : QueryBuilder) (L : List Cb)
    (hL : st.data.beforeLock .whereP = Cb.builtinWhere :: L)
    (hU : ∀ c ∈ L, ∃ i, c = Cb.user i)
    (h : st.locks .whereP = false) :
    (∀ r, (lock cenv .whereP st).locks r =
        if r = Phase.whereP then true else if r = Phase.whereBound then true else st.locks r) ∧
    (lock cenv .whereP st).lockTrace =
      st.lockTrace ++ (if st.locks .whereBound then [] else [Phase.whereBound]) ++ [Phase.whereP] ∧
    (lock cenv .whereP st).data.beforeLock = st.data.beforeLock := by
  have e : lock cenv .whereP st = compilePhase .whereP (markLocked .whereP
      ((st.data.beforeLock .whereP).foldl (fun s c => runCb cenv .whereP c s) st)) := by
    simp [lock, h]
  obtain ⟨b1, b2, b3, _⟩ := runCb_builtinWhere_fields cenv hT .whereP st
  obtain ⟨g1, g2, g3, _⟩ := runCb_fold_user cenv hT .whereP L hU
    (runCb cenv .whereP Cb.builtinWhere st)
  rw [hL] at e
  rw [List.foldl_cons] at e
  refine ⟨?_, ?_, ?_⟩
  · intro r
    rw [e]
    simp only [compile_locks, markLocked]
    by_cases hr : r = Phase.whereP
    · simp [hr]
    · simp only [if_neg hr, g1, b1 r]
  · rw [e]
    simp only [compile_lockTrace, markLocked, g2, b2]
  · rw [e]
    simp only [compile_data, markLocked, g3, b3]

/-- Characterisation of lock for the select phase when its list is the
    builtin callback followed by user callbacks and selectCursor is
    already locked (which finalization guarantees, having locked it in the
    preceding step). -/
theorem lock_select (cenv : CbEnv) (hT : TameEnv cenv) (st : QueryBuilder) (L : List Cb)
    (hL : st.data.beforeLock .select = Cb.builtinSelect :: L)
    (hU : ∀ c ∈ L, ∃ i, c = Cb.user i)
    (h : st.locks .select = false) (hsc : st.locks .selectCursor = true) :
    (∀ r, (lock cenv .select st).locks r = if r = Phase.select then true else st.locks r) ∧
    (lock cenv .select st).lockTrace = st.lockTrace ++ [Phase.select] ∧
    (lock cenv .select st).data.beforeLock = st.data.beforeLock := by
  have e : lock cenv .select st = compilePhase .select (markLocked .select
      ((st.data.beforeLock .select).foldl (fun s c => runCb cenv .select c s) st)) := by
    simp [lock, h]
  obtain ⟨b1, b2, b3, _⟩ := runCb_builtinSelect_fields cenv hT .select st
  obtain ⟨g1, g2, g3, _⟩ := runCb_fold_user cenv hT .select L hU
    (runCb cenv .select Cb.builtinSelect st)
  rw [hL] at e
  rw [List.foldl_cons] at e
  refine ⟨?_, ?_, ?_⟩
  · intro r
    rw [e]
    simp only [compile_locks, markLocked]
    by_cases hr : r = Phase.select
    · simp [hr]
    · simp only [if_neg hr, g1, b1 r]
      by_cases hb : r = Phase.selectCursor
      · simp [hb, hsc]
      · simp [hb]
  · rw [e]
    simp only [compile_lockTrace, markLocked, g2, b2, hsc]
    simp
  · rw [e]
    simp only [compile_data, markLocked, g3, b3]

theorem filter_congr_mem {α : Type} (f g : α → Bool) :
    ∀ (l : List α), (∀ x ∈ l, f x = g x) → l.filter f = l.filter g := by
  intro l
  induction l with
  | nil => intro _; rfl
  | cons x l ih =>
      intro h
      rw [List.filter_cons, List.filter_cons, h x (List.mem_cons_self x l),
        ih (fun y hy => h y (List.mem_cons_of_mem _ hy))]

/-- Locking a duplicate-free run of phases whose callback lists are all
    user callbacks: the lock flags gain exactly those phases, and the lock
    trace gains, in order, those of them that were not already locked. -/
theorem lock_simple_chain (cenv : CbEnv) (hT : TameEnv cenv) :
    ∀ (ps : List Phase), ps.Nodup → ∀ (st : QueryBuilder),
    (∀ p ∈ ps, ∀ c ∈ st.data.beforeLock p, ∃ i, c = Cb.user i) →
    (∀ r, (ps.foldl (fun s p => lock cenv p s) st).locks r = (ps.contains r || st.locks r)) ∧
    (ps.foldl (fun s p => lock cenv p s) st).lockTrace =
      st.lockTrace ++ ps.filter (fun p => !(st.locks p)) ∧
    (ps.foldl (fun s p => lock cenv p s) st).data.beforeLock = st.data.beforeLock := by
  intro ps
  induction ps with
  | nil => intro _ st _; exact ⟨fun r => by simp, by simp, rfl⟩
  | cons p rest ih =>
      intro hnd st hU
      have hpnotin : p ∉ rest := (List.nodup_cons.mp hnd).1
      have hndr : rest.Nodup := (List.nodup_cons.mp hnd).2
      obtain ⟨A1, A2, A3⟩ := lock_simple cenv hT p st (hU p (List.mem_cons_self p rest))
      have hUr : ∀ q ∈ rest, ∀ c ∈ (lock cenv p st).data.beforeLock q, ∃ i, c = Cb.user i := by
        intro q hq c hc
        rw [A3] at hc
        exact hU q (List.mem_cons_of_mem _ hq) c hc
      obtain ⟨G1, G2, G3⟩ := ih hndr (lock cenv p st) hUr
      have hlocks_rest : ∀ q ∈ rest, (lock cenv p st).locks q = st.locks q := by
        intro q hq
        have hqp : q ≠ p := by
          intro h
          exact hpnotin (h ▸ hq)
        rw [A1 q, if_neg hqp]
      refine ⟨?_, ?_, ?_⟩
      · intro r
        rw [List.foldl_cons, G1 r, A1 r]
        by_cases hr : r = p
        · subst hr
          by_cases hm : rest.contains r <;> simp [hm, List.contains_cons]
        · rw [if_neg hr]
          simp [List.contains_cons, hr]
      · rw [List.foldl_cons, G2, A2, List.append_assoc]
        have hfc : rest.filter (fun q => !((lock cenv p st).locks q)) =
            rest.filter (fun q => !(st.locks q)) :=
          filter_congr_mem _ _ rest (fun q hq => by rw [hlocks_rest q hq])
        rw [hfc, List.filter_cons]
        by_cases hp : st.locks p <;> simp [hp]
      · rw [List.foldl_cons, G3, A3]

/-- The lock order of finalization: under a tame environment, a builder
    whose callback lists have the shape the constructor creates (builtins
    first on select and where, user callbacks elsewhere) and whose
    compile-only phases are not yet locked gains, in the lock trace,
    exactly the not-yet-locked phases of the fixed order, in that order. -/
theorem lockEverything_trace (cenv : CbEnv) (hT : TameEnv cenv) (st : QueryBuilder)
    (Ls Lw : List Cb)
    (hLs : st.data.beforeLock .select = Cb.builtinSelect :: Ls)
    (hUs : ∀ c ∈ Ls, ∃ i, c = Cb.user i)
    (hLw : st.data.beforeLock .whereP = Cb.builtinWhere :: Lw)
    (hUw : ∀ c ∈ Lw, ∃ i, c = Cb.user i)
    (hOther : ∀ p, p ≠ Phase.select → p ≠ Phase.whereP →
      ∀ c ∈ st.data.beforeLock p, ∃ i, c = Cb.user i)
    (hWB : st.locks .whereBound = false) (hW : st.locks .whereP = false)
    (hSC : st.locks .selectCursor = false) (hS : st.locks .select = false) :
    (lockEverything cenv st).lockTrace =
      st.lockTrace ++ lockOrder.filter (fun p => !(st.locks p)) := by
  have e : lockEverything cenv st =
      lock cenv .select (lock cenv .selectCursor (lock cenv .whereP
        (simpleSeven.foldl (fun s p => lock cenv p s) (finalizeQB st)))) := rfl
  have hU7 : ∀ p ∈ simpleSeven, ∀ c ∈ (finalizeQB st).data.beforeLock p, ∃ i, c = Cb.user i := by
    intro p hp
    fin_cases hp <;> exact hOther _ (by decide) (by decide)
  obtain ⟨C1, C2, C3⟩ := lock_simple_chain cenv hT simpleSeven (by decide) (finalizeQB st) hU7
  have hfl : (finalizeQB st).locks = st.locks := rfl
  have hfb : (finalizeQB st).data.beforeLock = st.data.beforeLock := rfl
  have hft : (finalizeQB st).lockTrace = st.lockTrace := rfl
  simp only [hfl, hfb] at C1 C3
  simp only [hfl, hft] at C2
  obtain ⟨W1, W2, W3⟩ := lock_whereP cenv hT
    (simpleSeven.foldl (fun s p => lock cenv p s) (finalizeQB st)) Lw
    (by rw [C3]; exact hLw) hUw
    (by rw [C1 Phase.whereP]; simp [simpleSeven, hW])
  have hwb7 : (simpleSeven.foldl (fun s p => lock cenv p s) (finalizeQB st)).locks .whereBound
      = false := by
    rw [C1 Phase.whereBound]; simp [simpleSeven, hWB]
  rw [hwb7] at W2
  obtain ⟨S1, S2, S3⟩ := lock_simple cenv hT Phase.selectCursor
    (lock cenv .whereP (simpleSeven.foldl (fun s p => lock cenv p s) (finalizeQB st)))
    (by rw [W3, C3]; exact hOther _ (by decide) (by decide))
  have hsc8 : (lock cenv .whereP
      (simpleSeven.foldl (fun s p => lock cenv p s) (finalizeQB st))).locks .selectCursor
      = false := by
    rw [W1 Phase.selectCursor]
    simp only [show (Phase.selectCursor = Phase.whereP) = False by simp,
      show (Phase.selectCursor = Phase.whereBound) = False by simp, if_false]
    rw [C1 Phase.selectCursor]; simp [simpleSeven, hSC]
  rw [hsc8] at S2
  obtain ⟨T1, T2, T3⟩ := lock_select cenv hT
    (lock cenv .selectCursor (lock cenv .whereP
      (simpleSeven.foldl (fun s p => lock cenv p s) (finalizeQB st)))) Ls
    (by rw [S3, W3, C3]; exact hLs) hUs
    (by rw [S1 Phase.select]
        simp only [show (Phase.select = Phase.selectCursor) = False by simp, if_false]
        rw [W1 Phase.select]
        simp only [show (Phase.select = Phase.whereP) = False by simp,
          show (Phase.select = Phase.whereBound) = False by simp, if_false]
        rw [C1 Phase.select]; simp [simpleSeven, hS])
    (by rw [S1 Phase.selectCursor]; simp)
  rw [e, T2, S2, W2, C2]
  rw [show lockOrder = simpleSeven ++
      [Phase.whereBound, Phase.whereP, Phase.selectCursor, Phase.select] from rfl,
    List.filter_append]
  rw [show List.filter (fun p => !(st.locks p))
      [Phase.whereBound, Phase.whereP, Phase.selectCursor, Phase.select]
      = [Phase.whereBound, Phase.whereP, Phase.selectCursor, Phase.select] by
    simp [List.filter_cons, hWB, hW, hSC, hS]]
  simp [List.append_assoc]

end QueryBuilder

theorem reach_new : Reach newQueryBuilder := by
  refine ⟨⟨[], rfl, by simp⟩, ⟨[], rfl, by simp⟩, ?_, rfl, rfl, rfl, rfl⟩
  intro p h1 h2 c hc
  cases p <;> simp [newQueryBuilder, initialBeforeLock] at hc
  · exact absurd rfl h1
  · exact absurd rfl h2

theorem reach_parts (st st' : QueryBuilder)
    (hd : st'.data.beforeLock = st.data.beforeLock)
    (k4 : st'.locks .whereBound = st.locks .whereBound)
    (k5 : st'.locks .whereP = st.locks .whereP)
    (k6 : st'.locks .selectCursor = st.locks .selectCursor)
    (k7 : st'.locks .select = st.locks .select)
    (hR : Reach st) : Reach st' := by
  obtain ⟨⟨Ls, hLs, hUs⟩, ⟨Lw, hLw, hUw⟩, hO, h4, h5, h6, h7⟩ := hR
  refine ⟨⟨Ls, by rw [hd]; exact hLs, hUs⟩, ⟨Lw, by rw [hd]; exact hLw, hUw⟩, ?_,
    by rw [k4]; exact h4, by rw [k5]; exact h5, by rw [k6]; exact h6, by rw [k7]; exact h7⟩
  intro p p1 p2 c hc
  rw [hd] at hc
  exact hO p p1 p2 c hc

theorem reach_lock_simple (cenv : CbEnv) (hT : TameEnv cenv) (st st1 : QueryBuilder)
    (q : Phase) (hq1 : q ≠ Phase.select) (hq2 : q ≠ Phase.whereP)
    (hq3 : q ≠ Phase.whereBound) (hq4 : q ≠ Phase.selectCursor)
    (hd : st1.data.beforeLock = st.data.beforeLock) (hk : st1.locks = st.locks)
    (hR : Reach st) : Reach (QueryBuilder.lock cenv q st1) := by
  obtain ⟨A1, _, A3⟩ := QueryBuilder.lock_simple cenv hT q st1
    (by rw [hd]; exact hR.2.2.1 q hq1 hq2)
  refine reach_parts st _ (by rw [A3, hd]) ?_ ?_ ?_ ?_ hR
  · rw [A1 Phase.whereBound, if_neg (fun h => hq3 h.symm), hk]
  · rw [A1 Phase.whereP, if_neg (fun h => hq2 h.symm), hk]
  · rw [A1 Phase.selectCursor, if_neg (fun h => hq4 h.symm), hk]
  · rw [A1 Phase.select, if_neg (fun h => hq1 h.symm), hk]

theorem reach_beforeLockAdd (st : QueryBuilder) (p : Phase) (i : Nat) (hR : Reach st) :
    Reach { st with data :=
      { st.data with beforeLock :=
          fun q => if q = p then st.data.beforeLock q ++ [Cb.user i]
                   else st.data.beforeLock q } } := by
  obtain ⟨⟨Ls, hLs, hUs⟩, ⟨Lw, hLw, hUw⟩, hO, h4, h5, h6, h7⟩ := hR
  refine ⟨?_, ?_, ?_, h4, h5, h6, h7⟩
  · by_cases hp : Phase.select = p
    · refine ⟨Ls ++ [Cb.user i], ?_, ?_⟩
      · show (if Phase.select = p then st.data.beforeLock Phase.select ++ [Cb.user i]
              else st.data.beforeLock Phase.select) = _
        rw [if_pos hp, hLs]; rfl
      · intro c hc
        rcases List.mem_append.mp hc with hc1 | hc2
        · exact hUs c hc1
        · exact ⟨i, List.mem_singleton.mp hc2⟩
    · refine ⟨Ls, ?_, hUs⟩
      show (if Phase.select = p then st.data.beforeLock Phase.select ++ [Cb.user i]
            else st.data.beforeLock Phase.select) = _
      rw [if_neg hp, hLs]
  · by_cases hp : Phase.whereP = p
    · refine ⟨Lw ++ [Cb.user i], ?_, ?_⟩
      · show (if Phase.whereP = p then st.data.beforeLock Phase.whereP ++ [Cb.user i]
              else st.data.beforeLock Phase.whereP) = _
        rw [if_pos hp, hLw]; rfl
      · intro c hc
        rcases List.mem_append.mp hc with hc1 | hc2
        · exact hUw c hc1
        · exact ⟨i, List.mem_singleton.mp hc2⟩
    · refine ⟨Lw, ?_, hUw⟩
      show (if Phase.whereP = p then st.data.beforeLock Phase.whereP ++ [Cb.user i]
            else st.data.beforeLock Phase.whereP) = _
      rw [if_neg hp, hLw]
  · intro r r1 r2 c hc
    have hc' : c ∈ (if r = p then st.data.beforeLock r ++ [Cb.user i]
                    else st.data.beforeLock r) := hc
    by_cases hr : r = p
    · rw [if_pos hr] at hc'
      rcases List.mem_append.mp hc' with hc1 | hc2
      · exact hO r r1 r2 c hc1
      · exact ⟨i, List.mem_singleton.mp hc2⟩
    · rw [if_neg hr] at hc'
      exact hO r r1 r2 c hc'

theorem runOp_reach (cenv : CbEnv) (hT : TameEnv cenv) (o : Op) (st st' : QueryBuilder)
    (hR : Reach st) (h : runOp cenv o st = Except.ok st') : Reach st' := by
  cases o with
  | beforeLockOp p i =>
      by_cases hl : st.locks p
      · simp [runOp, QueryBuilder.beforeLock, QueryBuilder.checkLock, hl] at h
      · simp only [runOp, QueryBuilder.beforeLock, QueryBuilder.checkLock, hl,
          if_false, Bool.false_eq_true, Except.ok.injEq] at h
        subst h
        exact reach_beforeLockAdd st p i hR
  | setCursorComparatorOp f =>
      by_cases hl : st.locks .cursorComparator
      · simp [runOp, QueryBuilder.setCursorComparator, QueryBuilder.checkLock, hl] at h
      · simp only [runOp, QueryBuilder.setCursorComparator, QueryBuilder.checkLock, hl,
          if_false, Bool.false_eq_true, Except.ok.injEq] at h
        subst h
        exact reach_lock_simple cenv hT st _ .cursorComparator
          (by decide) (by decide) (by decide) (by decide) rfl rfl hR
  | selectOp g a =>
      by_cases hl : st.locks .select
      · simp [runOp, QueryBuilder.select, QueryBuilder.checkLock, hl] at h
      · simp only [runOp, QueryBuilder.select, QueryBuilder.checkLock, hl,
          if_false, Bool.false_eq_true, Except.ok.injEq] at h
        subst h
        exact reach_parts st _ rfl rfl rfl rfl rfl hR
  | selectCursorOp g =>
      by_cases hl : st.locks .selectCursor
      · simp [runOp, QueryBuilder.selectCursor, QueryBuilder.checkLock, hl] at h
      · simp only [runOp, QueryBuilder.selectCursor, QueryBuilder.checkLock, hl,
          if_false, Bool.false_eq_true, Except.ok.injEq] at h
        subst h
        exact reach_parts st _ rfl rfl rfl rfl rfl hR
  | fromOp g a =>
      by_cases hl : st.locks .fromRel
      · simp [runOp, QueryBuilder.fromRel, QueryBuilder.checkLock, hl] at h
      · simp only [runOp, QueryBuilder.fromRel, QueryBuilder.checkLock, hl,
          if_false, Bool.false_eq_true] at h
        cases g with
        | none => simp at h
        | some g1 =>
            cases a with
            | none => simp at h
            | some a1 =>
                simp only [Except.ok.injEq] at h
                subst h
                exact reach_lock_simple cenv hT st _ .fromRel
                  (by decide) (by decide) (by decide) (by decide) rfl rfl hR
  | whereOp g =>
      by_cases hl : st.locks .whereP
      · simp [runOp, QueryBuilder.whereAdd, QueryBuilder.checkLock, hl] at h
      · simp only [runOp, QueryBuilder.whereAdd, QueryBuilder.checkLock, hl,
          if_false, Bool.false_eq_true, Except.ok.injEq] at h
        subst h
        exact reach_parts st _ rfl rfl rfl rfl rfl hR
  | whereBoundOp g b =>
      by_cases hl : st.locks .whereBound
      · simp [runOp, QueryBuilder.whereBound, QueryBuilder.checkLock, hl] at h
      · simp only [runOp, QueryBuilder.whereBound, QueryBuilder.checkLock, hl,
          if_false, Bool.false_eq_true, Except.ok.injEq] at h
        subst h
        exact reach_parts st _ rfl rfl rfl rfl rfl hR
  | setOrderIsUniqueOp =>
      simp only [runOp, QueryBuilder.setOrderIsUnique, Except.ok.injEq] at h
      subst h
      exact reach_parts st _ rfl rfl rfl rfl rfl hR
  | orderByOp g b =>
      by_cases hl : st.locks .orderBy
      · simp [runOp, QueryBuilder.orderBy, QueryBuilder.checkLock, hl] at h
      · simp only [runOp, QueryBuilder.orderBy, QueryBuilder.checkLock, hl,
          if_false, Bool.false_eq_true, Except.ok.injEq] at h
        subst h
        exact reach_parts st _ rfl rfl rfl rfl rfl hR
  | limitOp n =>
      by_cases hl : st.locks .limit
      · simp [runOp, QueryBuilder.limit, QueryBuilder.checkLock, hl] at h
      · simp only [runOp, QueryBuilder.limit, QueryBuilder.checkLock, hl,
          if_false, Bool.false_eq_true, Except.ok.injEq] at h
        subst h
        exact reach_lock_simple cenv hT st _ .limit
          (by decide) (by decide) (by decide) (by decide) rfl rfl hR
  | offsetOp n =>
      by_cases hl : st.locks .offset
      · simp [runOp, QueryBuilder.offset, QueryBuilder.checkLock, hl] at h
      · simp only [runOp, QueryBuilder.offset, QueryBuilder.checkLock, hl,
          if_false, Bool.false_eq_true, Except.ok.injEq] at h
        subst h
        exact reach_lock_simple cenv hT st _ .offset
          (by decide) (by decide) (by decide) (by decide) rfl rfl hR
  | flipOp =>
      by_cases hl : st.locks .flip
      · simp [runOp, QueryBuilder.flip, QueryBuilder.checkLock, hl] at h
      · simp only [runOp, QueryBuilder.flip, QueryBuilder.checkLock, hl,
          if_false, Bool.false_eq_true, Except.ok.injEq] at h
        subst h
        exact reach_lock_simple cenv hT st _ .flip
          (by decide) (by decide) (by decide) (by decide) rfl rfl hR

theorem filter_tag_map (q p : Phase) (hqp : q ≠ p) (l : List Cb) :
    (l.map (fun c => (q, c))).filter (fun e => e.1 == p) = [] := by
  induction l with
  | nil => rfl
  | cons c l ih => simp [List.filter_cons, hqp, ih]

namespace QueryBuilder

/-- Running one callback of phase p appends exactly one p-tagged entry to
    the callback trace, as long as the callback is not the builtin that
    locks p itself (which never happens in reachable builders). -/
theorem runCb_cbTrace_filter (cenv : CbEnv) (hT : TameEnv cenv) (p : Phase) (c : Cb)
    (st : QueryBuilder)
    (hcs : c = Cb.builtinSelect → p ≠ Phase.selectCursor)
    (hcw : c = Cb.builtinWhere → p ≠ Phase.whereBound) :
    ((runCb cenv p c st).cbTrace).filter (fun e => e.1 == p) =
      st.cbTrace.filter (fun e => e.1 == p) ++ [(p, c)] := by
  cases c with
  | user i =>
      rw [(runCb_user_fields cenv hT p i st).2.2.2, List.filter_append]
      simp [List.filter_cons]
  | builtinWhere =>
      rw [(runCb_builtinWhere_fields cenv hT p st).2.2.2, List.filter_append,
        List.filter_append]
      by_cases hb : st.locks .whereBound
      · simp [hb, List.filter_cons]
      · simp only [hb, Bool.false_eq_true, if_false,
          filter_tag_map Phase.whereBound p (fun h => (hcw rfl) h.symm)]
        simp [List.filter_cons]
  | builtinSelect =>
      rw [(runCb_builtinSelect_fields cenv hT p st).2.2.2, List.filter_append,
        List.filter_append]
      by_cases hb : st.locks .selectCursor
      · simp [hb, List.filter_cons]
      · simp only [hb, Bool.false_eq_true, if_false,
          filter_tag_map Phase.selectCursor p (fun h => (hcs rfl) h.symm)]
        simp [List.filter_cons]

theorem runCb_fold_cbTrace_filter (cenv : CbEnv) (hT : TameEnv cenv) (p : Phase) :
    ∀ (L : List Cb) (st : QueryBuilder),
    (∀ c ∈ L, (c = Cb.builtinSelect → p ≠ Phase.selectCursor) ∧
      (c = Cb.builtinWhere → p ≠ Phase.whereBound)) →
    ((L.foldl (fun s c => runCb cenv p c s) st).cbTrace).filter (fun e => e.1 == p) =
      st.cbTrace.filter (fun e => e.1 == p) ++ L.map (fun c => (p, c)) := by
  intro L
  induction L with
  | nil => intro st _; simp
  | cons c L ih =>
      intro st hside
      rw [List.foldl_cons,
        ih (runCb cenv p c st) (fun c hc => hside c (List.mem_cons_of_mem _ hc)),
        runCb_cbTrace_filter cenv hT p c st
          (hside c (List.mem_cons_self c L)).1 (hside c (List.mem_cons_self c L)).2,
        List.map_cons, List.append_assoc]
      rfl

/-- Finalizing a builder whose eleven lockable phases are already locked
    only sets the finalized flag. -/
theorem lockEverything_fullyLocked (cenv : CbEnv) (st : QueryBuilder)
    (hF : FullyLocked st) : lockEverything cenv st = finalizeQB st := by
  obtain ⟨h1, h2, h3, h4, h5, h6, h7, _, h9, h10, h11⟩ := hF
  unfold lockEverything
  rw [lock_locked cenv .fromRel (finalizeQB st) h1,
    lock_locked cenv .flip (finalizeQB st) h2,
    lock_locked cenv .join (finalizeQB st) h3,
    lock_locked cenv .offset (finalizeQB st) h4,
    lock_locked cenv .limit (finalizeQB st) h5,
    lock_locked cenv .orderBy (finalizeQB st) h6,
    lock_locked cenv .cursorComparator (finalizeQB st) h7,
    lock_locked cenv .whereP (finalizeQB st) h9,
    lock_locked cenv .selectCursor (finalizeQB st) h10,
    lock_locked cenv .select (finalizeQB st) h11]

end QueryBuilder

theorem runOps_reach (cenv : CbEnv) (hT : TameEnv cenv) :
    ∀ (ops : List Op) (st st' : QueryBuilder), Reach st →
    runOps cenv ops st = Except.ok st' → Reach st' := by
  intro ops
  induction ops with
  | nil =>
      intro st st' hR h
      simp only [runOps, Except.ok.injEq] at h
      subst h
      exact hR
  | cons o rest ih =>
      intro st st' hR h
      simp only [runOps] at h
      cases ho : runOp cenv o st with
      | error e => rw [ho] at h; simp at h
      | ok s1 =>
          rw [ho] at h
          exact ih s1 st' (runOp_reach cenv hT o st s1 hR ho) h

namespace QueryBuilder

/-- C1 (amended): every mutator of the source list except setOrderIsUnique,
    called when its phase is locked, fails with the DoubleLock error for
    that phase and returns no new state; setOrderIsUnique is the exception,
    shown separately by the counterexample. -/
theorem claim1_amended (cenv : CbEnv) (st : QueryBuilder) (p : Phase) (i : Nat)
    (g : SQLGen) (a : RawAlias) (og : Option SQLGen) (oa : Option SQL) (b : Bool)
    (n : JSNum) (f : CursorComparator) :
    (st.locks p = true → beforeLock p i st = Except.error (QBError.doubleLock p)) ∧
    (st.locks .select = true →
      select g a st = Except.error (QBError.doubleLock .select)) ∧
    (st.locks .selectCursor = true →
      selectCursor g st = Except.error (QBError.doubleLock .selectCursor)) ∧
    (st.locks .fromRel = true →
      fromRel cenv og oa st = Except.error (QBError.doubleLock .fromRel)) ∧
    (st.locks .whereP = true →
      whereAdd g st = Except.error (QBError.doubleLock .whereP)) ∧
    (st.locks .whereBound = true →
      whereBound g b st = Except.error (QBError.doubleLock .whereBound)) ∧
    (st.locks .orderBy = true →
      orderBy g b st = Except.error (QBError.doubleLock .orderBy)) ∧
    (st.locks .limit = true →
      limit cenv n st = Except.error (QBError.doubleLock .limit)) ∧
    (st.locks .offset = true →
      offset cenv n st = Except.error (QBError.doubleLock .offset)) ∧
    (st.locks .flip = true →
      flip cenv st = Except.error (QBError.doubleLock .flip)) ∧
    (st.locks .cursorComparator = true →
      setCursorComparator cenv f st = Except.error (QBError.doubleLock .cursorComparator)) := by
  refine ⟨?_, ?_, ?_, ?_, ?_, ?_, ?_, ?_, ?_, ?_, ?_⟩ <;> intro h
  · simp [beforeLock, checkLock, h]
  · simp [select, checkLock, h]
  · simp [selectCursor, checkLock, h]
  · simp [fromRel, checkLock, h]
  · simp [whereAdd, checkLock, h]
  · simp [whereBound, checkLock, h]
  · simp [orderBy, checkLock, h]
  · simp [limit, checkLock, h]
  · simp [offset, checkLock, h]
  · simp [flip, checkLock, h]
  · simp [setCursorComparator, checkLock, h]

/-- C1 counterexample: after the orderIsUnique phase is locked, the
    setOrderIsUnique mutator does not throw DoubleLock; it succeeds and
    still changes the draft flag (the source omits the checkLock call in
    that one mutator). -/
theorem claim1_counterexample :
    ∃ st', setOrderIsUnique (lock cenvId Phase.orderIsUnique newQueryBuilder) =
        Except.ok st' ∧
      (lock cenvId Phase.orderIsUnique newQueryBuilder).locks Phase.orderIsUnique = true ∧
      (lock cenvId Phase.orderIsUnique newQueryBuilder).data.orderIsUnique = false ∧
      st'.data.orderIsUnique = true :=
  ⟨_, rfl, rfl, rfl, rfl⟩

/-- C1 witness: the amended claim at a builder with every phase locked. -/
theorem claim1_witness :
    beforeLock Phase.join 0 lockedEverywhere =
      Except.error (QBError.doubleLock Phase.join) ∧
    select (SQLGen.val SQL.nil) (RawAlias.str "x") lockedEverywhere =
      Except.error (QBError.doubleLock Phase.select) ∧
    selectCursor (SQLGen.val SQL.nil) lockedEverywhere =
      Except.error (QBError.doubleLock Phase.selectCursor) ∧
    fromRel cenvId (some (SQLGen.val SQL.nil)) (some SQL.nil) lockedEverywhere =
      Except.error (QBError.doubleLock Phase.fromRel) ∧
    whereAdd (SQLGen.val SQL.nil) lockedEverywhere =
      Except.error (QBError.doubleLock Phase.whereP) ∧
    whereBound (SQLGen.val SQL.nil) true lockedEverywhere =
      Except.error (QBError.doubleLock Phase.whereBound) ∧
    orderBy (SQLGen.val SQL.nil) true lockedEverywhere =
      Except.error (QBError.doubleLock Phase.orderBy) ∧
    limit cenvId (JSNum.num 3) lockedEverywhere =
      Except.error (QBError.doubleLock Phase.limit) ∧
    offset cenvId (JSNum.num 3) lockedEverywhere =
      Except.error (QBError.doubleLock Phase.offset) ∧
    flip cenvId lockedEverywhere = Except.error (QBError.doubleLock Phase.flip) ∧
    setCursorComparator cenvId (fun _ _ => SQL.nil) lockedEverywhere =
      Except.error (QBError.doubleLock Phase.cursorComparator) := by
  have T := claim1_amended cenvId lockedEverywhere Phase.join 0 (SQLGen.val SQL.nil)
    (RawAlias.str "x") (some (SQLGen.val SQL.nil)) (some SQL.nil) true (JSNum.num 3)
    (fun _ _ => SQL.nil)
  exact ⟨T.1 rfl, T.2.1 rfl, T.2.2.1 rfl, T.2.2.2.1 rfl, T.2.2.2.2.1 rfl,
    T.2.2.2.2.2.1 rfl, T.2.2.2.2.2.2.1 rfl, T.2.2.2.2.2.2.2.1 rfl,
    T.2.2.2.2.2.2.2.2.1 rfl, T.2.2.2.2.2.2.2.2.2.1 rfl, T.2.2.2.2.2.2.2.2.2.2 rfl⟩

/-- C2: locking is idempotent, in the strong sense that a second lock of
    the same phase returns the state unchanged, so compiled state is
    written at most once; and during the first lock the callbacks
    registered for the phase run exactly once, in registration order (the
    p-tagged entries appended to the callback trace are exactly the
    registered list, in order), for any tame callback environment and any
    builder whose builtin callbacks are registered where the constructor
    puts them. -/
theorem claim2_theorem (cenv : CbEnv) (p : Phase) (st : QueryBuilder) :
    lock cenv p (lock cenv p st) = lock cenv p st ∧
    (TameEnv cenv → WFBuilder st → st.locks p = false →
      ((lock cenv p st).cbTrace).filter (fun e => e.1 == p) =
        st.cbTrace.filter (fun e => e.1 == p) ++
          (st.data.beforeLock p).map (fun c => (p, c))) := by
  constructor
  · exact lock_locked cenv p (lock cenv p st) (lock_locks_self cenv p st)
  · intro hT hWF h
    have e : lock cenv p st = compilePhase p (markLocked p
        ((st.data.beforeLock p).foldl (fun s c => runCb cenv p c s) st)) := by
      simp [lock, h]
    rw [e, compile_cbTrace]
    have em : (markLocked p ((st.data.beforeLock p).foldl
        (fun s c => runCb cenv p c s) st)).cbTrace =
        ((st.data.beforeLock p).foldl (fun s c => runCb cenv p c s) st).cbTrace := rfl
    rw [em]
    apply runCb_fold_cbTrace_filter cenv hT p (st.data.beforeLock p) st
    intro c hc
    constructor
    · intro hcs hps
      subst hcs
      subst hps
      exact hWF.1 Cb.builtinSelect hc rfl
    · intro hcw hpw
      subst hcw
      subst hpw
      exact hWF.2 Cb.builtinWhere hc rfl

/-- C2 witness: the theorem at the select phase of a fresh builder, whose
    registered list is the single builtin callback. -/
theorem claim2_witness :
    lock cenvId Phase.select (lock cenvId Phase.select newQueryBuilder) =
      lock cenvId Phase.select newQueryBuilder ∧
    ((lock cenvId Phase.select newQueryBuilder).cbTrace).filter
        (fun e => e.1 == Phase.select) =
      newQueryBuilder.cbTrace.filter (fun e => e.1 == Phase.select) ++
        (newQueryBuilder.data.beforeLock Phase.select).map (fun c => (Phase.select, c)) := by
  have T := claim2_theorem cenvId Phase.select newQueryBuilder
  refine ⟨T.1, T.2 tameId ⟨?_, ?_⟩ rfl⟩
  · intro c hc
    simp [newQueryBuilder, initialBeforeLock] at hc
  · intro c hc
    simp [newQueryBuilder, initialBeforeLock] at hc

/-- C3: after any successful sequence of mutator calls on a fresh builder,
    under a tame callback environment, finalization appends to the lock
    trace exactly the not-yet-locked phases of the fixed order from, flip,
    join, offset, limit, orderBy, cursorComparator, whereBound (locked
    from inside the where callback), where, selectCursor, select, in that
    order: the order finalization locks phases in does not depend on the
    prior mutator calls. -/
theorem claim3_theorem (cenv : CbEnv) (ops : List Op) (st : QueryBuilder)
    (hT : TameEnv cenv) (h : runOps cenv ops newQueryBuilder = Except.ok st) :
    (lockEverything cenv st).lockTrace =
      st.lockTrace ++ lockOrder.filter (fun p => !(st.locks p)) := by
  obtain ⟨⟨Ls, hLs, hUs⟩, ⟨Lw, hLw, hUw⟩, hO, h4, h5, h6, h7⟩ :=
    runOps_reach cenv hT ops newQueryBuilder st reach_new h
  exact lockEverything_trace cenv hT st Ls Lw hLs hUs hLw hUw hO h4 h5 h6 h7

end QueryBuilder

namespace QueryBuilder

/-- C3 witness: a mutator sequence that sets a limit, an ordering, and
    registers a callback, then finalizes. -/
theorem claim3_witness :
    runOps cenvId opsW newQueryBuilder = Except.ok qbOpsW ∧
    (lockEverything cenvId qbOpsW).lockTrace =
      qbOpsW.lockTrace ++ lockOrder.filter (fun p => !(qbOpsW.locks p)) := by
  have h : runOps cenvId opsW newQueryBuilder = Except.ok qbOpsW := rfl
  exact ⟨h, claim3_theorem cenvId opsW qbOpsW tameId h⟩

end QueryBuilder

namespace QueryBuilder

/-- C4 (amended): once the eleven phases that finalization locks are
    locked (and the finalized flag is set), every mutator except
    setOrderIsUnique fails, but with the DoubleLock error of its phase
    rather than a distinct AlreadyFinalized error, and beforeLock fails
    for every phase of the finalization order; setOrderIsUnique still
    succeeds and silently updates the draft flag, and no mutator consults
    the finalized flag. -/
theorem claim4_amended (cenv : CbEnv) (st : QueryBuilder) (p : Phase) (i : Nat)
    (g : SQLGen) (a : RawAlias) (og : Option SQLGen) (oa : Option SQL) (b : Bool)
    (n : JSNum) (f : CursorComparator)
    (hF : FullyLocked st) (_hfin : st.finalized = true) :
    select g a st = Except.error (QBError.doubleLock .select) ∧
    selectCursor g st = Except.error (QBError.doubleLock .selectCursor) ∧
    fromRel cenv og oa st = Except.error (QBError.doubleLock .fromRel) ∧
    whereAdd g st = Except.error (QBError.doubleLock .whereP) ∧
    whereBound g b st = Except.error (QBError.doubleLock .whereBound) ∧
    orderBy g b st = Except.error (QBError.doubleLock .orderBy) ∧
    limit cenv n st = Except.error (QBError.doubleLock .limit) ∧
    offset cenv n st = Except.error (QBError.doubleLock .offset) ∧
    flip cenv st = Except.error (QBError.doubleLock .flip) ∧
    setCursorComparator cenv f st = Except.error (QBError.doubleLock .cursorComparator) ∧
    (p ∈ lockOrder → beforeLock p i st = Except.error (QBError.doubleLock p)) ∧
    setOrderIsUnique st =
      Except.ok { st with data := { st.data with orderIsUnique := true } } := by
  obtain ⟨h1, h2, h3, h4, h5, h6, h7, h8, h9, h10, h11⟩ := hF
  refine ⟨by simp [select, checkLock, h11], by simp [selectCursor, checkLock, h10],
    by simp [fromRel, checkLock, h1], by simp [whereAdd, checkLock, h9],
    by simp [whereBound, checkLock, h8], by simp [orderBy, checkLock, h6],
    by simp [limit, checkLock, h5], by simp [offset, checkLock, h4],
    by simp [flip, checkLock, h2], by simp [setCursorComparator, checkLock, h7],
    ?_, rfl⟩
  intro hp
  fin_cases hp
  · simp [beforeLock, checkLock, h1]
  · simp [beforeLock, checkLock, h2]
  · simp [beforeLock, checkLock, h3]
  · simp [beforeLock, checkLock, h4]
  · simp [beforeLock, checkLock, h5]
  · simp [beforeLock, checkLock, h6]
  · simp [beforeLock, checkLock, h7]
  · simp [beforeLock, checkLock, h8]
  · simp [beforeLock, checkLock, h9]
  · simp [beforeLock, checkLock, h10]
  · simp [beforeLock, checkLock, h11]

/-- C4 counterexample: on a freshly finalized builder, setOrderIsUnique
    does not fail with any error; it returns a changed builder whose draft
    flag silently became true after finalization. -/
theorem claim4_counterexample :
    ∃ st', setOrderIsUnique (lockEverything cenvId newQueryBuilder) = Except.ok st' ∧
      (lockEverything cenvId newQueryBuilder).finalized = true ∧
      (lockEverything cenvId newQueryBuilder).data.orderIsUnique = false ∧
      st'.data.orderIsUnique = true :=
  ⟨_, rfl, rfl, rfl, rfl⟩

/-- C4 witness: the amended claim at the builder obtained by finalizing a
    fresh builder. -/
theorem claim4_witness :
    whereAdd (SQLGen.val SQL.nil) (lockEverything cenvId newQueryBuilder) =
      Except.error (QBError.doubleLock Phase.whereP) ∧
    flip cenvId (lockEverything cenvId newQueryBuilder) =
      Except.error (QBError.doubleLock Phase.flip) ∧
    beforeLock Phase.join 0 (lockEverything cenvId newQueryBuilder) =
      Except.error (QBError.doubleLock Phase.join) ∧
    setOrderIsUnique (lockEverything cenvId newQueryBuilder) =
      Except.ok { lockEverything cenvId newQueryBuilder with data :=
        { (lockEverything cenvId newQueryBuilder).data with orderIsUnique := true } } := by
  have T := claim4_amended cenvId (lockEverything cenvId newQueryBuilder) Phase.join 0
    (SQLGen.val SQL.nil) (RawAlias.str "x") none none true (JSNum.num 3)
    (fun _ _ => SQL.nil)
    ⟨rfl, rfl, rfl, rfl, rfl, rfl, rfl, rfl, rfl, rfl, rfl⟩ rfl
  exact ⟨T.2.2.2.1, T.2.2.2.2.2.2.2.2.1,
    T.2.2.2.2.2.2.2.2.2.2.1 (by decide), T.2.2.2.2.2.2.2.2.2.2.2⟩

end QueryBuilder

namespace QueryBuilder

/-- C5: an empty compiled predicate set with bounds not requested compiles
    to the always-true condition 1 = 1; an empty lower or upper bound list
    compiles to the literal true; and on a builder whose where, whereBound
    and from phases are locked, the where clause is the AND, in order, of
    the optional null guard, the compiled predicates, the lower bound
    clause when requested, and the upper bound clause when requested. -/
theorem claim5_theorem (cenv : CbEnv) (st : QueryBuilder) (b il iu anc : Bool)
    (f a : SQL) :
    ((lock cenv .whereP st).compiledData.whereList = [] →
      buildWhereClause cenv false false false st =
        Except.ok (SQL.raw "1 = 1", lock cenv .whereP st)) ∧
    ((if b then (lock cenv .whereBound st).compiledData.whereBound.lower
      else (lock cenv .whereBound st).compiledData.whereBound.upper) = [] →
      buildWhereBoundClause cenv b st =
        (SQL.literal (Lit.bool true), lock cenv .whereBound st)) ∧
    (st.locks .whereP = true → st.locks .whereBound = true → st.locks .fromRel = true →
      st.compiledData.fromRel = some (f, a) →
      buildWhereClause cenv il iu anc st = Except.ok
        (whereClauseOf ((if anc then [nullGuardOf a] else []) ++
          st.compiledData.whereList ++
          (if il then [boundClauseOf st.compiledData.whereBound.lower] else []) ++
          (if iu then [boundClauseOf st.compiledData.whereBound.upper] else [])), st)) := by
  refine ⟨?_, ?_, ?_⟩
  · intro h
    simp [buildWhereClause, h, whereClauseOf]
  · intro h
    cases b with
    | true => simp at h; simp [buildWhereBoundClause, boundClauseOf, h]
    | false => simp at h; simp [buildWhereBoundClause, boundClauseOf, h]
  · intro h1 h2 h3 h4
    have e1 : lock cenv .whereP st = st := lock_locked cenv .whereP st h1
    have e2 : lock cenv .whereBound st = st := lock_locked cenv .whereBound st h2
    have e3 : lock cenv .fromRel st = st := lock_locked cenv .fromRel st h3
    cases anc with
    | false =>
        cases il <;> cases iu <;>
          simp [buildWhereClause, e1, e2, buildWhereBoundClause, boundClauseOf]
    | true =>
        cases il <;> cases iu <;>
          simp [buildWhereClause, e1, e2, e3, getTableAlias, h4,
            buildWhereBoundClause, boundClauseOf]

end QueryBuilder

namespace QueryBuilder

/-- C5 witness: the empty-predicate and empty-bound cases on a fresh
    builder, and the full AND order on a finalized builder with a from
    source. -/
theorem claim5_witness :
    buildWhereClause cenvId false false false newQueryBuilder =
      Except.ok (SQL.raw "1 = 1", lock cenvId Phase.whereP newQueryBuilder) ∧
    buildWhereBoundClause cenvId true newQueryBuilder =
      (SQL.literal (Lit.bool true), lock cenvId Phase.whereBound newQueryBuilder) ∧
    buildWhereClause cenvId true true true (lockEverything cenvId qbFrom) = Except.ok
      (whereClauseOf ([nullGuardOf (SQL.ident [RawAlias.str "u"])] ++
        (lockEverything cenvId qbFrom).compiledData.whereList ++
        [boundClauseOf (lockEverything cenvId qbFrom).compiledData.whereBound.lower] ++
        [boundClauseOf (lockEverything cenvId qbFrom).compiledData.whereBound.upper]),
       lockEverything cenvId qbFrom) := by
  have T1 := (claim5_theorem cenvId newQueryBuilder true false false false
    SQL.nil SQL.nil).1 rfl
  have T2 := (claim5_theorem cenvId newQueryBuilder true false false false
    SQL.nil SQL.nil).2.1 rfl
  have T3 := (claim5_theorem cenvId (lockEverything cenvId qbFrom) true true true true
    (SQL.raw "users") (SQL.ident [RawAlias.str "u"])).2.2 rfl rfl rfl rfl
  exact ⟨T1, T2, by simpa using T3⟩

/-- C6: evaluation of the code at the failing input.  setCursorComparator
    stores the comparator in draft state and locks the phase, yet a
    subsequent cursorCondition still fails with the missing-comparator
    error, because the lock switch of the source never copies the
    comparator into compiled state, which is what cursorCondition reads. -/
theorem claim6_theorem :
    ∃ st, setCursorComparator cenvId (fun _ _ => SQL.raw "cmp") newQueryBuilder =
        Except.ok st ∧
      st.data.cursorComparator.isSome = true ∧
      st.locks Phase.cursorComparator = true ∧
      st.compiledData.cursorComparator.isSome = false ∧
      cursorCondition cenvId cv0 true st = Except.error QBError.noCursorComparator :=
  ⟨_, rfl, rfl, rfl, rfl, rfl⟩

end QueryBuilder

namespace QueryBuilder

/-- C7 counterexample: a caller configures offset 0, a well-formed
    non-negative safe integer; the compiled offset is 0, yet the SQL that
    build produces contains no offset clause, because the source gates the
    offset clause on JS truthiness of the value rather than on
    isSafeInteger as it does for limit. -/
theorem claim7_counterexample :
    ∃ st1 frag st2,
      offset cenvId (JSNum.num 0) newQueryBuilder = Except.ok st1 ∧
      build cenvId {} st1 = Except.ok (frag, st2) ∧
      st1.compiledData.offset = some (JSNum.num 0) ∧
      jsIsSafeInteger (JSNum.num 0) = true ∧
      jsIsNeg (JSNum.num 0) = false ∧
      containsRaw "offset " frag = false :=
  ⟨_, _, _, rfl, rfl, rfl, rfl, rfl, rfl⟩

/-- C7 (amended): the limit clause is emitted exactly when the stored
    limit is a safe integer (never for null, NaN, infinities or
    non-integers), while the offset clause is emitted exactly when the
    stored offset is truthy: offset 0 is omitted although it is a
    well-formed non-negative integer, and a nonzero non-integer offset is
    emitted although it is not. -/
theorem claim7_amended (o : Option JSNum) (q : ℚ) :
    ((limitFragment o = SQL.nil) ↔ isSafeIntegerOpt o = false) ∧
    ((offsetFragment o = SQL.nil) ↔ jsTruthyOpt o = false) ∧
    (offsetFragment (some (JSNum.num 0)) = SQL.nil) ∧
    (q ≠ 0 → offsetFragment (some (JSNum.num q)) =
      SQL.cat (SQL.raw "offset ") (SQL.literal (Lit.jsnum (JSNum.num q)))) ∧
    (jsIsSafeInteger (JSNum.num q) = true →
      limitFragment (some (JSNum.num q)) =
        SQL.cat (SQL.raw "limit ") (SQL.literal (Lit.jsnum (JSNum.num q)))) := by
  refine ⟨?_, ?_, ?_, ?_, ?_⟩
  · cases o with
    | none => simp [limitFragment, isSafeIntegerOpt]
    | some n =>
        by_cases h : jsIsSafeInteger n <;> simp [limitFragment, isSafeIntegerOpt, h]
  · cases o with
    | none => simp [offsetFragment, jsTruthyOpt]
    | some n =>
        by_cases h : jsTruthy n <;> simp [offsetFragment, jsTruthyOpt, h]
  · simp [offsetFragment, jsTruthy]
  · intro h
    simp [offsetFragment, jsTruthy, h]
  · intro h
    simp [limitFragment, h]

/-- C7 witness: the amended claim at the stored offset 5/2, which is
    truthy but not an integer, and the stored limit 2. -/
theorem claim7_witness :
    (limitFragment (some (JSNum.num (mkRat 5 2))) = SQL.nil) ∧
    offsetFragment (some (JSNum.num (mkRat 5 2))) =
      SQL.cat (SQL.raw "offset ") (SQL.literal (Lit.jsnum (JSNum.num (mkRat 5 2)))) ∧
    offsetFragment (some (JSNum.num 0)) = SQL.nil ∧
    limitFragment (some (JSNum.num 2)) =
      SQL.cat (SQL.raw "limit ") (SQL.literal (Lit.jsnum (JSNum.num 2))) := by
  have T1 := (claim7_amended (some (JSNum.num (mkRat 5 2))) (mkRat 5 2)).1
  have T2 := (claim7_amended (some (JSNum.num (mkRat 5 2))) (mkRat 5 2)).2.2.2.1 (by decide)
  have T3 := (claim7_amended (some (JSNum.num 0)) 0).2.2.1
  have T4 := (claim7_amended (some (JSNum.num 2)) 2).2.2.2.2 (by decide)
  exact ⟨T1.mpr (by decide), T2, T3, T4⟩

end QueryBuilder

namespace QueryBuilder

/-- C8 (amended): without a compiled from source, build fails with the
    MissingFromSource error exactly on the paths that need the table
    alias: every JSON mode (onlyJsonField, asJson, asJsonAggregate) when
    the select list is empty (the whole-row shape needs the alias), and
    every mode when addNullCase is set; in plain column mode without
    addNullCase build succeeds with the FROM clause omitted (the from slot
    of the assembled statement is the empty contribution), and likewise
    each JSON mode succeeds, FROM omitted, when the select list is
    nonempty and addNullCase is not set. -/
theorem claim8_amended (cenv : CbEnv) (st : QueryBuilder) (hF : FullyLocked st)
    (hfrom : st.compiledData.fromRel = none) :
    (st.compiledData.select = [] →
      build cenv { onlyJsonField := true } st = Except.error QBError.noFromSupplied ∧
      build cenv { asJson := true } st = Except.error QBError.noFromSupplied ∧
      build cenv { asJsonAggregate := true } st = Except.error QBError.noFromSupplied) ∧
    (build cenv { addNullCase := true } st = Except.error QBError.noFromSupplied ∧
     build cenv { onlyJsonField := true, addNullCase := true } st =
       Except.error QBError.noFromSupplied ∧
     build cenv { asJson := true, addNullCase := true } st =
       Except.error QBError.noFromSupplied ∧
     build cenv { asJsonAggregate := true, addNullCase := true } st =
       Except.error QBError.noFromSupplied) ∧
    (∃ st', build cenv {} st =
      Except.ok (flipWrap st (assembledCoreNoFromWith (flatFieldsOf st) st), st')) ∧
    (st.compiledData.select ≠ [] →
      build cenv { onlyJsonField := true } st =
        Except.ok (jsonShapeOf st.compiledData.select, finalizeQB st) ∧
      (∃ st', build cenv { asJson := true } st = Except.ok
        (flipWrap st (assembledCoreNoFromWith
          (SQL.cat (jsonShapeOf st.compiledData.select) (SQL.raw " as object")) st),
         st')) ∧
      (∃ st', build cenv { asJsonAggregate := true } st = Except.ok
        (aggWrapOf st (flipWrap st (assembledCoreNoFromWith
          (SQL.cat (jsonShapeOf st.compiledData.select) (SQL.raw " as object")) st)),
         st'))) := by
  obtain ⟨h1, h2, h3, h4, h5, h6, h7, h8, h9, h10, h11⟩ := hF
  have hF2 : FullyLocked (finalizeQB st) :=
    ⟨h1, h2, h3, h4, h5, h6, h7, h8, h9, h10, h11⟩
  have e1 : lockEverything cenv st = finalizeQB st :=
    lockEverything_fullyLocked cenv st ⟨h1, h2, h3, h4, h5, h6, h7, h8, h9, h10, h11⟩
  have e2 : lockEverything cenv (finalizeQB st) = finalizeQB st :=
    (lockEverything_fullyLocked cenv (finalizeQB st) hF2).trans rfl
  have w1 : lock cenv .fromRel (finalizeQB st) = finalizeQB st :=
    lock_locked cenv .fromRel (finalizeQB st) h1
  have w8 : lock cenv .whereBound (finalizeQB st) = finalizeQB st :=
    lock_locked cenv .whereBound (finalizeQB st) h8
  have w9 : lock cenv .whereP (finalizeQB st) = finalizeQB st :=
    lock_locked cenv .whereP (finalizeQB st) h9
  have hfrom2 : (finalizeQB st).compiledData.fromRel = none := hfrom
  have hcd : (finalizeQB st).compiledData = st.compiledData := rfl
  have hfr : (finalizeQB st).freshId = st.freshId := rfl
  refine ⟨?_, ⟨?_, ?_, ?_, ?_⟩, ?_, ?_⟩
  · intro hsel
    have hsel2 : (finalizeQB st).compiledData.select = [] := hsel
    refine ⟨?_, ?_, ?_⟩ <;>
      simp [build, buildSelectJson, getTableAlias, e1, e2, w1, hfrom2, hsel2]
  · simp [build, buildSelectFields, buildWhereClause, getTableAlias, e1, e2, w1, w9,
      hfrom2]
  · by_cases hsel : (finalizeQB st).compiledData.select = [] <;>
      simp [build, buildSelectJson, getTableAlias, e1, e2, w1, hfrom2, hsel]
  · by_cases hsel : (finalizeQB st).compiledData.select = [] <;>
      simp [build, buildSelectJson, getTableAlias, e1, e2, w1, hfrom2, hsel]
  · by_cases hsel : (finalizeQB st).compiledData.select = [] <;>
      simp [build, buildSelectJson, getTableAlias, e1, e2, w1, hfrom2, hsel]
  · by_cases hfl : st.compiledData.flip = true
    · have hfl2 : (finalizeQB st).compiledData.flip = true := hfl
      simp [build, buildSelectFields, buildWhereClause, buildWhereBoundClause,
        getTableAlias, fromFragment, flipWrap, assembledCoreNoFromWith, flatFieldsOf,
        e1, e2, w1, w8, w9, hfrom2, hfrom, hcd, hfr, hfl, hfl2]
    · have hfl2 : (finalizeQB st).compiledData.flip = false :=
        Bool.of_not_eq_true hfl
      simp [build, buildSelectFields, buildWhereClause, buildWhereBoundClause,
        getTableAlias, fromFragment, flipWrap, assembledCoreNoFromWith, flatFieldsOf,
        e1, e2, w1, w8, w9, hfrom2, hfrom, hcd, hfr, hfl, hfl2]
  · intro hsel
    have hsel2 : ¬((finalizeQB st).compiledData.select = []) := hsel
    refine ⟨?_, ?_, ?_⟩
    · simp [build, buildSelectJson, getTableAlias, jsonShapeOf, e1, e2, hcd, hsel2, hsel]
    · by_cases hfl : st.compiledData.flip = true
      · have hfl2 : (finalizeQB st).compiledData.flip = true := hfl
        simp [build, buildSelectJson, buildWhereClause, buildWhereBoundClause,
          getTableAlias, fromFragment, flipWrap, assembledCoreNoFromWith, jsonShapeOf,
          e1, e2, w1, w8, w9, hfrom2, hfrom, hcd, hfr, hfl, hfl2, hsel2, hsel]
      · have hfl2 : (finalizeQB st).compiledData.flip = false :=
          Bool.of_not_eq_true hfl
        simp [build, buildSelectJson, buildWhereClause, buildWhereBoundClause,
          getTableAlias, fromFragment, flipWrap, assembledCoreNoFromWith, jsonShapeOf,
          e1, e2, w1, w8, w9, hfrom2, hfrom, hcd, hfr, hfl, hfl2, hsel2, hsel]
    · by_cases hfl : st.compiledData.flip = true
      · have hfl2 : (finalizeQB st).compiledData.flip = true := hfl
        simp [build, buildSelectJson, buildWhereClause, buildWhereBoundClause,
          getTableAlias, fromFragment, flipWrap, aggWrapOf, assembledCoreNoFromWith,
          jsonShapeOf, e1, e2, w1, w8, w9, hfrom2, hfrom, hcd, hfr, hfl, hfl2, hsel2, hsel]
      · have hfl2 : (finalizeQB st).compiledData.flip = false :=
          Bool.of_not_eq_true hfl
        simp [build, buildSelectJson, buildWhereClause, buildWhereBoundClause,
          getTableAlias, fromFragment, flipWrap, aggWrapOf, assembledCoreNoFromWith,
          jsonShapeOf, e1, e2, w1, w8, w9, hfrom2, hfrom, hcd, hfr, hfl, hfl2, hsel2, hsel]

end QueryBuilder

namespace QueryBuilder

/-- C8 counterexample: build in plain column mode on a fresh builder with
    no from source configured returns a fragment instead of failing with
    MissingFromSource. -/
theorem claim8_counterexample :
    ∃ frag st', build cenvId {} newQueryBuilder = Except.ok (frag, st') ∧
      newQueryBuilder.data.fromRel = none :=
  ⟨_, _, rfl, rfl⟩

/-- C8 witness: the finalized fresh builder (no from source, empty select
    list) exercises every error path and the plain-mode success, and the
    finalized builder with one selected expression and no from source
    exercises the three JSON-mode successes with the FROM clause
    omitted. -/
theorem claim8_witness :
    build cenvId { onlyJsonField := true } (lockEverything cenvId newQueryBuilder) =
      Except.error QBError.noFromSupplied ∧
    build cenvId { asJson := true } (lockEverything cenvId newQueryBuilder) =
      Except.error QBError.noFromSupplied ∧
    build cenvId { asJsonAggregate := true } (lockEverything cenvId newQueryBuilder) =
      Except.error QBError.noFromSupplied ∧
    build cenvId { addNullCase := true } (lockEverything cenvId newQueryBuilder) =
      Except.error QBError.noFromSupplied ∧
    build cenvId { onlyJsonField := true, addNullCase := true }
      (lockEverything cenvId newQueryBuilder) = Except.error QBError.noFromSupplied ∧
    build cenvId { asJson := true, addNullCase := true }
      (lockEverything cenvId newQueryBuilder) = Except.error QBError.noFromSupplied ∧
    build cenvId { asJsonAggregate := true, addNullCase := true }
      (lockEverything cenvId newQueryBuilder) = Except.error QBError.noFromSupplied ∧
    (∃ st', build cenvId {} (lockEverything cenvId newQueryBuilder) = Except.ok
      (flipWrap (lockEverything cenvId newQueryBuilder)
        (assembledCoreNoFromWith (flatFieldsOf (lockEverything cenvId newQueryBuilder))
          (lockEverything cenvId newQueryBuilder)), st')) ∧
    build cenvId { onlyJsonField := true } (lockEverything cenvId qbSel) = Except.ok
      (jsonShapeOf (lockEverything cenvId qbSel).compiledData.select,
       finalizeQB (lockEverything cenvId qbSel)) ∧
    (∃ st', build cenvId { asJson := true } (lockEverything cenvId qbSel) = Except.ok
      (flipWrap (lockEverything cenvId qbSel)
        (assembledCoreNoFromWith
          (SQL.cat (jsonShapeOf (lockEverything cenvId qbSel).compiledData.select)
            (SQL.raw " as object"))
          (lockEverything cenvId qbSel)), st')) ∧
    (∃ st', build cenvId { asJsonAggregate := true } (lockEverything cenvId qbSel) =
      Except.ok
        (aggWrapOf (lockEverything cenvId qbSel)
          (flipWrap (lockEverything cenvId qbSel)
            (assembledCoreNoFromWith
              (SQL.cat (jsonShapeOf (lockEverything cenvId qbSel).compiledData.select)
                (SQL.raw " as object"))
              (lockEverything cenvId qbSel))), st')) := by
  have T := claim8_amended cenvId (lockEverything cenvId newQueryBuilder)
    ⟨rfl, rfl, rfl, rfl, rfl, rfl, rfl, rfl, rfl, rfl, rfl⟩ rfl
  have S := claim8_amended cenvId (lockEverything cenvId qbSel)
    ⟨rfl, rfl, rfl, rfl, rfl, rfl, rfl, rfl, rfl, rfl, rfl⟩ rfl
  have hne : (lockEverything cenvId qbSel).compiledData.select ≠ [] := by decide
  exact ⟨(T.1 rfl).1, (T.1 rfl).2.1, (T.1 rfl).2.2, T.2.1.1, T.2.1.2.1, T.2.1.2.2.1,
    T.2.1.2.2.2, T.2.2.1, (S.2.2.2 hne).1, (S.2.2.2 hne).2.1, (S.2.2.2 hne).2.2⟩

end QueryBuilder

namespace QueryBuilder

/-- C9: an order entry is rendered ascending exactly when its ascending
    flag xor the flip flag is true, so with flip unset it keeps its
    configured direction and with flip set the direction is reversed; and
    on a finalized builder with a from source, build wraps the assembled
    inner query in the named reversal subexpression (re-sorted descending
    by a windowed row number over a constant partition, consuming one
    fresh identifier) exactly when flip is set, and adds no wrapper
    otherwise. -/
theorem claim9_theorem (cenv : CbEnv) (st : QueryBuilder) (e f al : SQL) (a : Bool)
    (hF : FullyLocked st) (hfrom : st.compiledData.fromRel = some (f, al)) :
    (orderByEntry e a false =
      cats [e, SQL.raw " ", SQL.raw (if a then "ASC" else "DESC")]) ∧
    (orderByEntry e a true =
      cats [e, SQL.raw " ", SQL.raw (if a then "DESC" else "ASC")]) ∧
    (st.compiledData.flip = true →
      build cenv {} st = Except.ok
        (flipWrapper st.freshId (assembledCore st f al),
         { finalizeQB st with freshId := st.freshId + 1 })) ∧
    (st.compiledData.flip = false →
      build cenv {} st = Except.ok (assembledCore st f al, finalizeQB st)) := by
  obtain ⟨h1, h2, h3, h4, h5, h6, h7, h8, h9, h10, h11⟩ := hF
  have hF2 : FullyLocked (finalizeQB st) :=
    ⟨h1, h2, h3, h4, h5, h6, h7, h8, h9, h10, h11⟩
  have e1 : lockEverything cenv st = finalizeQB st :=
    lockEverything_fullyLocked cenv st ⟨h1, h2, h3, h4, h5, h6, h7, h8, h9, h10, h11⟩
  have e2 : lockEverything cenv (finalizeQB st) = finalizeQB st :=
    (lockEverything_fullyLocked cenv (finalizeQB st) hF2).trans rfl
  have w1 : lock cenv .fromRel (finalizeQB st) = finalizeQB st :=
    lock_locked cenv .fromRel (finalizeQB st) h1
  have w8 : lock cenv .whereBound (finalizeQB st) = finalizeQB st :=
    lock_locked cenv .whereBound (finalizeQB st) h8
  have w9 : lock cenv .whereP (finalizeQB st) = finalizeQB st :=
    lock_locked cenv .whereP (finalizeQB st) h9
  have hfrom2 : (finalizeQB st).compiledData.fromRel = some (f, al) := hfrom
  refine ⟨by cases a <;> simp [orderByEntry], by cases a <;> simp [orderByEntry],
    ?_, ?_⟩
  · intro hfl
    have hfl2 : (finalizeQB st).compiledData.flip = true := hfl
    have hcd : (finalizeQB st).compiledData = st.compiledData := rfl
    have hfr : (finalizeQB st).freshId = st.freshId := rfl
    simp [build, buildSelectFields, buildWhereClause, buildWhereBoundClause,
      getTableAlias, fromFragment, assembledCore, e1, e2, w1, w8, w9, hfrom2, hfl2,
      hcd, hfr, hfl, hfrom]
  · intro hfl
    have hfl2 : (finalizeQB st).compiledData.flip = false := hfl
    have hcd : (finalizeQB st).compiledData = st.compiledData := rfl
    have hfr : (finalizeQB st).freshId = st.freshId := rfl
    simp [build, buildSelectFields, buildWhereClause, buildWhereBoundClause,
      getTableAlias, fromFragment, assembledCore, e1, e2, w1, w8, w9, hfrom2, hfl2,
      hcd, hfr, hfl, hfrom]

/-- C9 witness: a flipped builder with a from source goes through the
    reversal wrapper, and the same builder without flip does not. -/
theorem claim9_witness :
    orderByEntry (SQL.raw "c") true false =
      cats [SQL.raw "c", SQL.raw " ", SQL.raw "ASC"] ∧
    orderByEntry (SQL.raw "c") true true =
      cats [SQL.raw "c", SQL.raw " ", SQL.raw "DESC"] ∧
    build cenvId {} (lockEverything cenvId qbFlipFrom) = Except.ok
      (flipWrapper (lockEverything cenvId qbFlipFrom).freshId
        (assembledCore (lockEverything cenvId qbFlipFrom) (SQL.raw "users")
          (SQL.ident [RawAlias.str "u"])),
       { finalizeQB (lockEverything cenvId qbFlipFrom) with
          freshId := (lockEverything cenvId qbFlipFrom).freshId + 1 }) ∧
    build cenvId {} (lockEverything cenvId qbFrom) = Except.ok
      (assembledCore (lockEverything cenvId qbFrom) (SQL.raw "users")
        (SQL.ident [RawAlias.str "u"]),
       finalizeQB (lockEverything cenvId qbFrom)) := by
  have Ta := claim9_theorem cenvId (lockEverything cenvId qbFlipFrom) (SQL.raw "c")
    (SQL.raw "users") (SQL.ident [RawAlias.str "u"]) true
    ⟨rfl, rfl, rfl, rfl, rfl, rfl, rfl, rfl, rfl, rfl, rfl⟩ rfl
  have Tb := claim9_theorem cenvId (lockEverything cenvId qbFrom) (SQL.raw "c")
    (SQL.raw "users") (SQL.ident [RawAlias.str "u"]) true
    ⟨rfl, rfl, rfl, rfl, rfl, rfl, rfl, rfl, rfl, rfl, rfl⟩ rfl
  exact ⟨Ta.1, Ta.2.1, Ta.2.2.1 rfl, Tb.2.2.2 rfl⟩

end QueryBuilder

namespace QueryBuilder

/-- C10: a successful limit(n) stores Math.max(0, n) as both the draft and
    the compiled limit, offset(n) does the same for the offset (stated for
    builders with no user callbacks registered on those phases, which
    mutators never register), and the clamped value is never negative, for
    every JS number n, including negative, NaN and infinite inputs. -/
theorem claim10_theorem (cenv : CbEnv) (st st1 st2 : QueryBuilder) (n m : JSNum) :
    (st.data.beforeLock .limit = [] → limit cenv n st = Except.ok st1 →
      st1.data.limit = some (jsMax (JSNum.num 0) n) ∧
      st1.compiledData.limit = some (jsMax (JSNum.num 0) n)) ∧
    (st.data.beforeLock .offset = [] → offset cenv n st = Except.ok st2 →
      st2.data.offset = some (jsMax (JSNum.num 0) n) ∧
      st2.compiledData.offset = some (jsMax (JSNum.num 0) n)) ∧
    jsIsNeg (jsMax (JSNum.num 0) m) = false := by
  refine ⟨?_, ?_, ?_⟩
  · intro hbl h
    by_cases hl : st.locks .limit
    · simp [limit, checkLock, hl] at h
    · simp only [limit, checkLock, hl, Bool.false_eq_true, if_false,
        Except.ok.injEq] at h
      subst h
      constructor
      · simp [lock, hl, hbl, compilePhase, markLocked]
      · simp [lock, hl, hbl, compilePhase, markLocked]
  · intro hbl h
    by_cases hl : st.locks .offset
    · simp [offset, checkLock, hl] at h
    · simp only [offset, checkLock, hl, Bool.false_eq_true, if_false,
        Except.ok.injEq] at h
      subst h
      constructor
      · simp [lock, hl, hbl, compilePhase, markLocked]
      · simp [lock, hl, hbl, compilePhase, markLocked]
  · cases m with
    | num q =>
        simp only [jsMax, jsIsNeg, decide_eq_false_iff_not, not_lt]
        exact le_max_left 0 q
    | nan => rfl
    | inf => rfl
    | ninf => rfl

/-- C10 witness states. -/
theorem claim10_witness :
    limit cenvId (JSNum.num (-5)) newQueryBuilder = Except.ok qbLim5 ∧
    qbLim5.data.limit = some (jsMax (JSNum.num 0) (JSNum.num (-5))) ∧
    qbLim5.compiledData.limit = some (jsMax (JSNum.num 0) (JSNum.num (-5))) ∧
    jsMax (JSNum.num 0) (JSNum.num (-5)) = JSNum.num 0 ∧
    offset cenvId JSNum.ninf newQueryBuilder = Except.ok qbOffNinf ∧
    qbOffNinf.data.offset = some (jsMax (JSNum.num 0) JSNum.ninf) ∧
    jsIsNeg (jsMax (JSNum.num 0) (JSNum.num (-5))) = false := by
  have h1 : limit cenvId (JSNum.num (-5)) newQueryBuilder = Except.ok qbLim5 := rfl
  have h2 : offset cenvId JSNum.ninf newQueryBuilder = Except.ok qbOffNinf := rfl
  have T1 := (claim10_theorem cenvId newQueryBuilder qbLim5 qbOffNinf
    (JSNum.num (-5)) (JSNum.num (-5))).1 rfl h1
  have T2 := (claim10_theorem cenvId newQueryBuilder qbLim5 qbOffNinf
    JSNum.ninf JSNum.ninf).2.1 rfl h2
  exact ⟨h1, T1.1, T1.2, by decide, h2, T2.1,
    (claim10_theorem cenvId newQueryBuilder qbLim5 qbOffNinf (JSNum.num (-5))
      (JSNum.num (-5))).2.2⟩

end QueryBuilder
